import Mathlib

/-!
Verification of the log-capture subsystem in `src/logging/log_handler.c`
(the virtlogd log handler).  The handler itself is translated from the C
source; the companion leaf modules that the excerpt links against but whose
sources are not part of the excerpt (the rotating file writer/reader, the
JSON value helpers, the event-loop registration API, the pipe and
descriptor-inheritance primitives) are modelled from the specification's
contracts for them.  All state (open descriptors, event-loop watches, the
file system) is threaded explicitly through a `World` value.
-/

namespace LogHandler

/-! ## JSON values

Modelled from the spec: the `virJSONValue` tree consumed and produced by the
restart codec (`virJSONValueObjectGet`/`GetString`/`GetNumberInt`,
`virJSONValueArraySize`/`ArrayGet`, and the object/array builders), which is
not part of the excerpted sources.  A value is a string, an integer, an
array, or an object given as an ordered key/value list. -/
inductive JSONValue where
  | str (s : String)
  | num (n : Int)
  | arr (elems : List JSONValue)
  | obj (fields : List (String × JSONValue))

/-- Modelled from the spec: `virJSONValueObjectGet` — look up a key of an
object; `none` for a missing key or a non-object. -/
def virJSONValueObjectGet (v : JSONValue) (key : String) : Option JSONValue :=
  match v with
  | .obj fields =>
    match fields.find? (fun kv => kv.1 = key) with
    | some kv => some kv.2
    | none => none
  | _ => none

/-- Modelled from the spec: `virJSONValueObjectGetString` — the value at the
key, provided it is a string. -/
def virJSONValueObjectGetString (v : JSONValue) (key : String) : Option String :=
  match virJSONValueObjectGet v key with
  | some (.str s) => some s
  | _ => none

/-- Modelled from the spec: `virJSONValueObjectGetNumberInt` — the value at
the key, provided it is a number. -/
def virJSONValueObjectGetNumberInt (v : JSONValue) (key : String) : Option Int :=
  match virJSONValueObjectGet v key with
  | some (.num n) => some n
  | _ => none

/-- Modelled from the spec: `virJSONValueArraySize` — the length of an array
value, `none` (the C code's negative return) on a non-array. -/
def virJSONValueArraySize (v : JSONValue) : Option Nat :=
  match v with
  | .arr elems => some elems.length
  | _ => none

/-! ## Files, descriptors, watches: the world -/

/-- One regular file of the host file system: its path, its inode and its
byte content. -/
structure FSFile where
  path : String
  inode : Nat
  content : List Nat
deriving DecidableEq

/-- The explicit state threaded through every operation: the set of open
descriptors together with their inheritable-across-exec attribute (`true`
means close-on-exec is cleared), the set of registered event-loop watches,
allocation counters for fresh descriptors / watches / inodes, and the file
system. -/
structure World where
  fds : List (Int × Bool)
  watches : List Int
  nextFd : Int
  nextWatch : Int
  nextInode : Nat
  fs : List FSFile
deriving DecidableEq

/-- Well-formedness of a world: allocation counters dominate everything
allocated so far, and are non-negative. -/
def World.WF (w : World) : Prop :=
  (∀ p ∈ w.fds, p.1 < w.nextFd) ∧ (∀ x ∈ w.watches, x < w.nextWatch) ∧
    0 ≤ w.nextFd ∧ 0 ≤ w.nextWatch

instance (w : World) : Decidable w.WF := by
  unfold World.WF; infer_instance

/-- `VIR_FORCE_CLOSE(fd)`: close the descriptor when it is non-negative,
otherwise do nothing. -/
def VIR_FORCE_CLOSE (fd : Int) (w : World) : World :=
  if fd < 0 then w else { w with fds := w.fds.filter (fun p => p.1 ≠ fd) }

/-- Modelled from the spec: the event-loop registration API
`remove(watch_id)` (`virEventRemoveHandle`) — drop the watch from the set of
registered watches. -/
def virEventRemoveHandle (watch : Int) (w : World) : World :=
  { w with watches := w.watches.filter (fun x => x ≠ watch) }

/-- Modelled from the spec: the event-loop registration API
`add(fd, READABLE) -> watch_id` (`virEventAddHandle`) — on success register
a fresh watch id and return it, on failure return `-1` and leave the world
untouched.  Success is dictated by the oracle `ok`. -/
def virEventAddHandle (ok : Bool) (w : World) : Int × World :=
  if ok then
    (w.nextWatch,
     { w with watches := w.nextWatch :: w.watches, nextWatch := w.nextWatch + 1 })
  else (-1, w)

/-- Modelled from the spec: the descriptor-inheritance toggle
`set_inheritable(fd, bool)` (`virSetInherit`) — set the inheritable
attribute of an open descriptor; fails (returns `none`) when the descriptor
is not open. -/
def virSetInherit (fd : Int) (inherit : Bool) (w : World) : Option World :=
  if w.fds.any (fun p => p.1 = fd) then
    some { w with fds := w.fds.map (fun p => if p.1 = fd then (p.1, inherit) else p) }
  else none

/-- Modelled from the spec: the pipe-creation primitive returning a
`(read_fd, write_fd)` pair (`pipe`) — on success allocate two fresh open
descriptors (inheritable, as plain `pipe` descriptors are), on failure
(oracle `ok` false) change nothing. -/
def virPipeCreate (ok : Bool) (w : World) : Option (Int × Int × World) :=
  if ok then
    some (w.nextFd, w.nextFd + 1,
      { w with fds := (w.nextFd, true) :: (w.nextFd + 1, true) :: w.fds,
               nextFd := w.nextFd + 2 })
  else none

/-- Look up a file of the file system by path. -/
def fsFind (fs : List FSFile) (p : String) : Option FSFile :=
  fs.find? (fun f => f.path = p)

/-- Content of the file at a path, if the file exists. -/
def fsRead (fs : List FSFile) (p : String) : Option (List Nat) :=
  (fsFind fs p).map FSFile.content

/-- Truncate the file at a path to zero length (the inode is kept, as with
`O_TRUNC`). -/
def fsTruncate (fs : List FSFile) (p : String) : List FSFile :=
  fs.map (fun f => if f.path = p then { f with content := [] } else f)

/-- Append bytes to the file at a path. -/
def fsAppend (fs : List FSFile) (p : String) (data : List Nat) : List FSFile :=
  fs.map (fun f => if f.path = p then { f with content := f.content ++ data } else f)

/-- Rename the file at a path (inode and content are kept). -/
def fsRename (fs : List FSFile) (old new : String) : List FSFile :=
  fs.map (fun f => if f.path = old then { f with path := new } else f)

/-- Delete the file at a path. -/
def fsDelete (fs : List FSFile) (p : String) : List FSFile :=
  fs.filter (fun f => f.path ≠ p)

/-- Backup naming convention of the rotating writer: backup `i` of `p` is
the file `p.i`. -/
def backupName (p : String) (i : Nat) : String :=
  p ++ "." ++ toString i

/-! ## RotatingFileWriter

Modelled from the spec: `virrotatingfile.c` is not part of the excerpt; the
writer is built from the contract of spec section 4.1: `new(path, max_size,
max_backups, append, mode)` opens or creates `path`, and "if `append` is
false truncates"; `append(bytes)` rotates first when the write would cross
`max_size` and then writes the whole buffer, returning the number of bytes
written; rotation shifts backup suffix `n` to `n+1`, discards the backup
beyond `max_backups`, renames the current file to suffix 1 and opens a
fresh current file. -/

/-- A rotating file writer: the identity of the current file and the write
position, next to the construction-time policy parameters. -/
structure RotatingFileWriter where
  path : String
  maxlen : Nat
  maxbackup : Nat
  mode : Nat
  inode : Nat
  offset : Nat
deriving DecidableEq

/-- `path()` accessor of the writer (`virRotatingFileWriterGetPath`). -/
def virRotatingFileWriterGetPath (wr : RotatingFileWriter) : String :=
  wr.path

/-- `inode()` accessor of the writer (`virRotatingFileWriterGetINode`). -/
def virRotatingFileWriterGetINode (wr : RotatingFileWriter) : Nat :=
  wr.inode

/-- `offset()` accessor of the writer (`virRotatingFileWriterGetOffset`). -/
def virRotatingFileWriterGetOffset (wr : RotatingFileWriter) : Nat :=
  wr.offset

/-- Shift the backup files `p.1 .. p.k` one suffix up, highest first. -/
def shiftBackups (p : String) : Nat → List FSFile → List FSFile
  | 0, fs => fs
  | k + 1, fs => shiftBackups p k (fsRename fs (backupName p (k + 1)) (backupName p (k + 2)))

/-- Modelled from the spec: one rotation of the writer — discard the oldest
backup, shift the remaining backups up, rename the current file to suffix 1
and open a fresh (empty, new-inode) current file; the writer's offset
restarts at 0. -/
def virRotatingFileWriterRotate (wr : RotatingFileWriter) (w : World) :
    RotatingFileWriter × World :=
  let fs := fsDelete w.fs (backupName wr.path wr.maxbackup)
  let fs := shiftBackups wr.path (wr.maxbackup - 1) fs
  let fs := fsRename fs wr.path (backupName wr.path 1)
  let fs := ⟨wr.path, w.nextInode, []⟩ :: fs
  ({ wr with inode := w.nextInode, offset := 0 },
   { w with fs := fs, nextInode := w.nextInode + 1 })

/-- Modelled from the spec: `virRotatingFileWriterNew(path, maxlen,
maxbackup, append, mode)` — open or create the current file; when `append`
is false the prior content is truncated, when it is true the prior content
is preserved and the offset starts at its length.  The oracle `ok` stands
for the I/O failures (permission, path) of the real call. -/
def virRotatingFileWriterNew (ok : Bool) (path : String) (maxlen maxbackup : Nat)
    (append : Bool) (mode : Nat) (w : World) : Option (RotatingFileWriter × World) :=
  if ok then
    match fsFind w.fs path with
    | some f =>
      if append then
        some ({ path := path, maxlen := maxlen, maxbackup := maxbackup, mode := mode,
                inode := f.inode, offset := f.content.length }, w)
      else
        some ({ path := path, maxlen := maxlen, maxbackup := maxbackup, mode := mode,
                inode := f.inode, offset := 0 },
              { w with fs := fsTruncate w.fs path })
    | none =>
      some ({ path := path, maxlen := maxlen, maxbackup := maxbackup, mode := mode,
              inode := w.nextInode, offset := 0 },
            { w with fs := ⟨path, w.nextInode, []⟩ :: w.fs, nextInode := w.nextInode + 1 })
  else none

/-- Modelled from the spec: `virRotatingFileWriterAppend` — on success
(`ret = none`) rotate first when the write would cross `max_size`, append
the whole buffer to the current file and return its length; a dictated
outcome `ret = some r` stands for an I/O failure or short write, returning
`r` with the writer state unchanged. -/
def virRotatingFileWriterAppend (ret : Option Int) (wr : RotatingFileWriter)
    (data : List Nat) (w : World) : Int × RotatingFileWriter × World :=
  match ret with
  | some r => (r, wr, w)
  | none =>
    let rotated :=
      if wr.maxlen < wr.offset + data.length then virRotatingFileWriterRotate wr w
      else (wr, w)
    let wr := rotated.1
    let w := rotated.2
    ((data.length : Int),
     { wr with offset := wr.offset + data.length },
     { w with fs := fsAppend w.fs wr.path data })

/-! ## RotatingFileReader

Modelled from the spec: the reader of spec section 4.2 — `new(path,
max_backups)` enumerates the current file and the numbered backups that
exist and chains them from the oldest backup to the current file;
`seek(inode, offset)` positions the cursor on the chain member with the
requested inode, failing when no member matches; `consume(max_len)` reads
up to `max_len` bytes from the cursor onwards, crossing chain boundaries. -/

/-- A rotating file reader: the chain of files from oldest backup to
current, and the cursor (chain index and offset inside that member). -/
structure RotatingFileReader where
  chain : List FSFile
  cur : Nat
  pos : Nat
deriving DecidableEq

/-- The existing backups `p.m, ..., p.1`, oldest first. -/
def chainBackups (w : World) (p : String) : Nat → List FSFile
  | 0 => []
  | k + 1 => (fsFind w.fs (backupName p (k + 1))).toList ++ chainBackups w p k

/-- Modelled from the spec: `virRotatingFileReaderNew(path, maxbackup)` —
build the chain of retained files, oldest backup first, current file last;
the cursor starts at the beginning of the chain.  The oracle `ok` stands
for the I/O failures of the real call. -/
def virRotatingFileReaderNew (ok : Bool) (w : World) (p : String) (maxbackup : Nat) :
    Option RotatingFileReader :=
  if ok then
    some { chain := chainBackups w p maxbackup ++ (fsFind w.fs p).toList,
           cur := 0, pos := 0 }
  else none

/-- Modelled from the spec: `virRotatingFileReaderSeek(inode, offset)` —
position the cursor on the chain member whose inode matches; fail when the
requested inode is absent from the retained set (the position is stale). -/
def virRotatingFileReaderSeek (r : RotatingFileReader) (inode : Nat) (offset : Nat) :
    Option RotatingFileReader :=
  match r.chain.findIdx? (fun f => f.inode = inode) with
  | some i => some { r with cur := i, pos := offset }
  | none => none

/-- The bytes available from the reader's cursor to the end of the chain. -/
def readerAvail (r : RotatingFileReader) : List Nat :=
  (((r.chain.drop r.cur).map FSFile.content).flatten).drop r.pos

/-- Modelled from the spec: `virRotatingFileReaderConsume(maxlen)` — read
up to `maxlen` bytes starting at the cursor, advancing across chain
boundaries; fewer bytes are returned only at the end of the chain.  The
oracle `ok` stands for the I/O failures of the real call. -/
def virRotatingFileReaderConsume (ok : Bool) (r : RotatingFileReader) (maxlen : Nat) :
    Option (List Nat) :=
  if ok then some ((readerAvail r).take maxlen) else none

/-! ## The log handler data model (`log_handler.c`) -/

/-- `DEFAULT_FILE_SIZE` of `log_handler.c`: 128 KiB rotation threshold. -/
def DEFAULT_FILE_SIZE : Nat := 128 * 1024

/-- `DEFAULT_MAX_BACKUP` of `log_handler.c`: 3 retained backups. -/
def DEFAULT_MAX_BACKUP : Nat := 3

/-- `DEFAULT_MODE` of `log_handler.c`: file creation mode 0600. -/
def DEFAULT_MODE : Nat := 0o600

/-- `struct _virLogHandlerLogFile`: one guest's rotating writer, event-loop
watch handle and pipe read descriptor. -/
structure LogFile where
  file : RotatingFileWriter
  watch : Int
  pipefd : Int
deriving DecidableEq

/-- `struct _virLogHandler`: the privileged-mode flag and the collection of
open log file entries. -/
structure virLogHandler where
  privileged : Bool
  files : List LogFile
deriving DecidableEq

/-- `virLogHandlerLogFileFree` restricted to its observable world effect,
applicable also to a partially initialised entry: force-close the pipe
descriptor and, when the watch handle differs from `-1`, unregister the
watch.  (Freeing the writer and the record releases memory only.) -/
def virLogHandlerLogFileFreeParts (pipefd watch : Int) (w : World) : World :=
  let w := VIR_FORCE_CLOSE pipefd w
  if watch ≠ -1 then virEventRemoveHandle watch w else w

/-- `virLogHandlerLogFileFree` on a complete entry. -/
def virLogHandlerLogFileFree (f : LogFile) (w : World) : World :=
  virLogHandlerLogFileFreeParts f.pipefd f.watch w

/-- `virLogHandlerLogFileClose`: remove the first occurrence of the entry
from the handler's collection and free it; a file not in the collection is
left alone. -/
def virLogHandlerLogFileClose (h : virLogHandler) (file : LogFile) (w : World) :
    virLogHandler × World :=
  if file ∈ h.files then
    ({ h with files := h.files.erase file }, virLogHandlerLogFileFree file w)
  else (h, w)

/-- `virLogHandlerGetLogFileFromWatch`: the first entry registered under the
given watch handle. -/
def virLogHandlerGetLogFileFromWatch (h : virLogHandler) (watch : Int) : Option LogFile :=
  h.files.find? (fun f => f.watch = watch)

/-- `virLogHandlerDispose`: free every entry of the handler. -/
def virLogHandlerDispose (h : virLogHandler) (w : World) : World :=
  h.files.foldl (fun w f => virLogHandlerLogFileFree f w) w

/-- `virLogHandlerNew`: a fresh handler with no entries; the oracle `ok`
stands for allocation failure of `virObjectLockableNew`. -/
def virLogHandlerNew (ok : Bool) (privileged : Bool) : Option virLogHandler :=
  if ok then some { privileged := privileged, files := [] } else none

/-! ## The pipe readiness callback (`virLogHandlerDomainLogFileEvent`) -/

/-- One outcome of a `read` call on the pipe: either delivered bytes or a
failure with an `errno` value. -/
inductive ReadOutcome where
  | bytes (data : List Nat)
  | fail (errno : Nat)
deriving DecidableEq

/-- The `errno` value for an interrupted system call. -/
def EINTR : Nat := 4

/-- `VIR_EVENT_HANDLE_READABLE` event bit. -/
def VIR_EVENT_HANDLE_READABLE : Nat := 1

/-- `VIR_EVENT_HANDLE_HANGUP` event bit. -/
def VIR_EVENT_HANDLE_HANGUP : Nat := 8

/-- The `reread` loop of the callback: `read(fd, buf, sizeof(buf))` with
`sizeof(buf) = 1024`, retried immediately as long as it fails with `EINTR`.
The argument lists the successive outcomes the kernel delivers; a delivery
of more than 1024 available bytes is cut to the 1024-byte buffer.  `none`
means the modelled outcome list was exhausted with only `EINTR` failures,
i.e. the loop has not produced a result. -/
def drainReads : List ReadOutcome → Option (Except Nat (List Nat))
  | [] => none
  | .fail e :: rest => if e = EINTR then drainReads rest else some (.error e)
  | .bytes d :: _ => some (.ok (d.take 1024))

/-- Write back the in-place mutation of the writer of the first entry with
the given watch (the C code appends through the pointer stored in the
entry). -/
def updateFileWriter : List LogFile → Int → RotatingFileWriter → List LogFile
  | [], _, _ => []
  | f :: rest, watch, wr =>
    if f.watch = watch then { f with file := wr } :: rest
    else f :: updateFileWriter rest watch wr

/-- `virLogHandlerDomainLogFileEvent`: the pipe readiness callback.  Looks
up the entry by watch (removing a stale watch when the entry is gone or its
descriptor does not match), drains one bounded read from the pipe (retrying
on `EINTR`), appends the bytes read to the entry's writer, and closes the
entry on a read error, on a short or failed append, or when the event
signals hangup.  `appendRet` is the oracle for the outcome of
`virRotatingFileWriterAppend` (`none` = full success).  A `none` result
stands for the unreached case in which the modelled read outcomes were
exhausted by `EINTR` retries. -/
def virLogHandlerDomainLogFileEvent (watch fd : Int) (events : Nat)
    (reads : List ReadOutcome) (appendRet : Option Int)
    (h : virLogHandler) (w : World) : Option (virLogHandler × World) :=
  match virLogHandlerGetLogFileFromWatch h watch with
  | none => some (h, virEventRemoveHandle watch w)
  | some logfile =>
    if logfile.pipefd ≠ fd then some (h, virEventRemoveHandle watch w)
    else
      match drainReads reads with
      | none => none
      | some (.error _) => some (virLogHandlerLogFileClose h logfile w)
      | some (.ok data) =>
        let r := virRotatingFileWriterAppend appendRet logfile.file data w
        let logfile1 : LogFile := { logfile with file := r.2.1 }
        let h1 : virLogHandler := { h with files := updateFileWriter h.files watch r.2.1 }
        if r.1 ≠ (data.length : Int) then some (virLogHandlerLogFileClose h1 logfile1 r.2.2)
        else if events &&& VIR_EVENT_HANDLE_HANGUP ≠ 0 then
          some (virLogHandlerLogFileClose h1 logfile1 r.2.2)
        else some (h1, r.2.2)

/-! ## The restart codec (`virLogHandlerLogFilePostExecRestart`,
`virLogHandlerNewPostExecRestart`, `virLogHandlerPreExecRestart`) -/

/-- Failure oracles for a restore: allocation of the entry record, creation
of the rotating writer, growth of the handler's entry array and event-loop
registration may each fail, per entry index. -/
structure RestoreEnv where
  newOk : Bool
  allocOk : Nat → Bool
  writerOk : Nat → Bool
  arrayOk : Nat → Bool
  watchOk : Nat → Bool

/-- `virLogHandlerLogFilePostExecRestart`: rebuild one entry from a JSON
element.  `VIR_ALLOC` zero-fills the record, so until assigned the pipe
descriptor and the watch handle are both `0`; the path must be a string
under `"path"`, the writer is re-created over it with the append argument
`false`, the pipe descriptor must be a number under `"pipefd"`, and
close-on-exec is restored on it (`virSetInherit(fd, false)`, failing when
the descriptor is not open).  Any failure frees the partial record and
returns `none`. -/
def virLogHandlerLogFilePostExecRestart (allocOk writerOk : Bool) (object : JSONValue)
    (w : World) : Option LogFile × World :=
  if allocOk then
    match virJSONValueObjectGetString object "path" with
    | none => (none, virLogHandlerLogFileFreeParts 0 0 w)
    | some path =>
      match virRotatingFileWriterNew writerOk path DEFAULT_FILE_SIZE DEFAULT_MAX_BACKUP
          false DEFAULT_MODE w with
      | none => (none, virLogHandlerLogFileFreeParts 0 0 w)
      | some (writer, w1) =>
        match virJSONValueObjectGetNumberInt object "pipefd" with
        | none => (none, virLogHandlerLogFileFreeParts 0 0 w1)
        | some pfd =>
          match virSetInherit pfd false w1 with
          | none => (none, virLogHandlerLogFileFreeParts pfd 0 w1)
          | some w2 => (some { file := writer, watch := 0, pipefd := pfd }, w2)
  else (none, w)

/-- The per-element loop of `virLogHandlerNewPostExecRestart`: rebuild each
entry, append it to the handler's collection, and register its watch; on an
entry failure unreference the handler, freeing every entry restored so far.
When `virEventAddHandle` fails the C code assigns its negative return to the
entry's watch and splices the entry back out of the array before taking the
error path (the spliced-out record itself is not freed there, and neither is
the rebuilt record when growing the array fails). -/
def restoreLoop (env : RestoreEnv) (elems : List JSONValue) (i : Nat)
    (h : virLogHandler) (w : World) : Option virLogHandler × World :=
  match elems with
  | [] => (some h, w)
  | child :: rest =>
    match virLogHandlerLogFilePostExecRestart (env.allocOk i) (env.writerOk i) child w with
    | (none, w1) => (none, virLogHandlerDispose h w1)
    | (some file, w1) =>
      if env.arrayOk i then
        let h1 : virLogHandler := { h with files := h.files ++ [file] }
        let r := virEventAddHandle (env.watchOk i) w1
        if r.1 < 0 then
          (none, virLogHandlerDispose { h1 with files := h1.files.dropLast } r.2)
        else
          restoreLoop env rest (i + 1)
            { h1 with files := h1.files.dropLast ++ [{ file with watch := r.1 }] } r.2
      else (none, virLogHandlerDispose h w1)

/-- `virLogHandlerNewPostExecRestart`: construct a fresh handler and rebuild
its entries from the `"files"` array of the restart document.  A missing
`"files"` key or a non-`array` value under it (the negative
`virJSONValueArraySize` return) aborts before any entry is rebuilt. -/
def virLogHandlerNewPostExecRestart (env : RestoreEnv) (object : JSONValue)
    (privileged : Bool) (w : World) : Option virLogHandler × World :=
  match virLogHandlerNew env.newOk privileged with
  | none => (none, w)
  | some handler =>
    match virJSONValueObjectGet object "files" with
    | none => (none, virLogHandlerDispose handler w)
    | some (.arr elems) => restoreLoop env elems 0 handler w
    | some _ => (none, virLogHandlerDispose handler w)

/-- The JSON-construction step of the capture loop at which an entry fails,
when it does: allocating the element object, appending it to the array, or
appending the `pipefd` or `path` field. -/
inductive CapStep where
  | newObj | arrAppend | appendNum | appendStr
deriving DecidableEq

/-- Failure oracles for a capture: the top-level object and array builders
and the per-entry JSON construction steps. -/
structure CapEnv where
  retOk : Bool
  filesOk : Bool
  objAppendOk : Bool
  entryFail : Nat → Option CapStep

/-- The per-entry loop of `virLogHandlerPreExecRestart`: for each entry, in
order, build a JSON object holding its `pipefd` and its writer's `path`,
append it to the `"files"` array, and then mark the pipe descriptor
inheritable (`virSetInherit(fd, true)`, failing when the descriptor is not
open).  Any failure aborts the loop; descriptors already marked inheritable
stay inheritable. -/
def capLoop (env : CapEnv) (files : List LogFile) (i : Nat)
    (acc : List JSONValue) (w : World) : Option (List JSONValue) × World :=
  match files with
  | [] => (some acc, w)
  | f :: rest =>
    match env.entryFail i with
    | some _ => (none, w)
    | none =>
      match virSetInherit f.pipefd true w with
      | none => (none, w)
      | some w1 =>
        capLoop env rest (i + 1)
          (acc ++ [JSONValue.obj
            [("pipefd", .num f.pipefd),
             ("path", .str (virRotatingFileWriterGetPath f.file))]]) w1

/-- `virLogHandlerPreExecRestart`: capture the handler's entries into the
restart document `obj ["files" := arr [...]]`, marking every captured pipe
descriptor inheritable as a side effect; on any failure the partial
document is freed and `none` is returned, without undoing the
already-applied inheritance marks. -/
def virLogHandlerPreExecRestart (env : CapEnv) (h : virLogHandler) (w : World) :
    Option JSONValue × World :=
  if env.retOk then
    if env.filesOk then
      if env.objAppendOk then
        match capLoop env h.files 0 [] w with
        | (some elems, w1) => (some (.obj [("files", .arr elems)]), w1)
        | (none, w1) => (none, w1)
      else (none, w)
    else (none, w)
  else (none, w)

/-! ## Path derivation and the remaining public operations -/

/-- The configure-time `LOCALSTATEDIR` constant of `configmake.h`; `/var`
in a conventional build. -/
def LOCALSTATEDIR : String := "/var"

/-- `virLogHandlerGetLogFilePathForDomain`: derive the log path for a
`(driver, guest)` pair.  Privileged mode uses the fixed system log root;
unprivileged mode uses the per-user cache directory (`asprintfOk` stands
for allocation failure of `virAsprintf`, `cachedir` for the result of
`virGetUserCacheDirectory`).  The guest UUID argument is unused, as in the
source (`ATTRIBUTE_UNUSED`). -/
def virLogHandlerGetLogFilePathForDomain (asprintfOk : Bool) (cachedir : Option String)
    (h : virLogHandler) (driver : String) (domuuid : List Nat) (domname : String) :
    Option String :=
  if h.privileged then
    if asprintfOk then
      some (LOCALSTATEDIR ++ "/log/libvirt/" ++ driver ++ "/" ++ domname ++ ".log")
    else none
  else
    match cachedir with
    | none => none
    | some c =>
      if asprintfOk then some (c ++ "/" ++ driver ++ "/log/" ++ domname ++ ".log")
      else none

/-- Failure oracles for `virLogHandlerDomainOpenLogFile`. -/
structure OpenEnv where
  asprintfOk : Bool
  cachedir : Option String
  pipeOk : Bool
  allocOk : Bool
  writerOk : Bool
  arrayOk : Bool
  watchOk : Bool

/-- The distinct failure exits of `virLogHandlerDomainOpenLogFile`. -/
inductive OpenFailure where
  | pathFail | busy | pipeFail | allocFail | writerFail | arrayFail | watchFail
deriving DecidableEq

/-- `virLogHandlerDomainOpenLogFile`: derive the path, reject with `EBUSY`
when an entry over that path already exists, create the pipe, allocate the
entry (taking over the read end), create the writer over the path with the
append argument `false`, append the entry to the collection and register
the read end with the event loop.  On success return the write end of the
pipe and the writer's inode and offset; on any failure run the error label:
close both pipe ends still held and free the partial entry.  The handler
and world are returned alongside to expose the state after the call. -/
def virLogHandlerDomainOpenLogFile (env : OpenEnv) (h : virLogHandler)
    (driver : String) (domuuid : List Nat) (domname : String) (w : World) :
    virLogHandler × World × Except OpenFailure (Int × Nat × Nat) :=
  match virLogHandlerGetLogFilePathForDomain env.asprintfOk env.cachedir h driver
      domuuid domname with
  | none => (h, w, .error .pathFail)
  | some path =>
    if h.files.any (fun f => virRotatingFileWriterGetPath f.file = path) then
      (h, w, .error .busy)
    else
      match virPipeCreate env.pipeOk w with
      | none => (h, w, .error .pipeFail)
      | some (rfd, wfd, w1) =>
        if env.allocOk then
          match virRotatingFileWriterNew env.writerOk path DEFAULT_FILE_SIZE
              DEFAULT_MAX_BACKUP false DEFAULT_MODE w1 with
          | none =>
            (h, virLogHandlerLogFileFreeParts rfd (-1) (VIR_FORCE_CLOSE wfd w1),
             .error .writerFail)
          | some (writer, w2) =>
            let file : LogFile := { file := writer, watch := -1, pipefd := rfd }
            if env.arrayOk then
              let h1 : virLogHandler := { h with files := h.files ++ [file] }
              let r := virEventAddHandle env.watchOk w2
              if r.1 < 0 then
                ({ h1 with files := h1.files.dropLast },
                 virLogHandlerLogFileFree { file with watch := r.1 }
                   (VIR_FORCE_CLOSE wfd r.2),
                 .error .watchFail)
              else
                ({ h1 with files := h1.files.dropLast ++ [{ file with watch := r.1 }] },
                 r.2,
                 .ok (wfd, virRotatingFileWriterGetINode writer,
                      virRotatingFileWriterGetOffset writer))
            else
              (h, virLogHandlerLogFileFree file (VIR_FORCE_CLOSE wfd w2),
               .error .arrayFail)
        else
          (h, VIR_FORCE_CLOSE wfd (VIR_FORCE_CLOSE rfd w1), .error .allocFail)

/-- `virLogHandlerDomainGetLogFilePosition`: look up the live entry by
derived path and report its writer's inode and offset; `none` when no entry
is open for the guest. -/
def virLogHandlerDomainGetLogFilePosition (asprintfOk : Bool) (cachedir : Option String)
    (h : virLogHandler) (driver : String) (domuuid : List Nat) (domname : String) :
    Option (Nat × Nat) :=
  match virLogHandlerGetLogFilePathForDomain asprintfOk cachedir h driver domuuid
      domname with
  | none => none
  | some path =>
    match h.files.find? (fun f => virRotatingFileWriterGetPath f.file = path) with
    | some f =>
      some (virRotatingFileWriterGetINode f.file, virRotatingFileWriterGetOffset f.file)
    | none => none

/-- Failure oracles for `virLogHandlerDomainReadLogFile`. -/
structure ReadEnv where
  asprintfOk : Bool
  cachedir : Option String
  readerOk : Bool
  allocOk : Bool
  consumeOk : Bool

/-- `virLogHandlerDomainReadLogFile`: derive the path, construct a fresh
reader over it, seek to `(inode, offset)`, allocate a zero-filled buffer of
`maxlen + 1` bytes, consume up to `maxlen` bytes into it and terminate the
buffer with a `0` byte right after the bytes consumed. -/
def virLogHandlerDomainReadLogFile (env : ReadEnv) (h : virLogHandler)
    (driver : String) (domuuid : List Nat) (domname : String)
    (inode offset maxlen : Nat) (w : World) : Option (List Nat) :=
  match virLogHandlerGetLogFilePathForDomain env.asprintfOk env.cachedir h driver
      domuuid domname with
  | none => none
  | some path =>
    match virRotatingFileReaderNew env.readerOk w path DEFAULT_MAX_BACKUP with
    | none => none
    | some file =>
      match virRotatingFileReaderSeek file inode offset with
      | none => none
      | some file1 =>
        if env.allocOk then
          match virRotatingFileReaderConsume env.consumeOk file1 maxlen with
          | none => none
          | some got => some (got ++ List.replicate (maxlen + 1 - got.length) 0)
        else none

/-! ## Malformedness of a restart document (spec section 6) -/

/-- One element of the `"files"` array is malformed: it lacks a string
`"path"` or an integer `"pipefd"`. -/
def entryMalformed (child : JSONValue) : Prop :=
  virJSONValueObjectGetString child "path" = none ∨
    virJSONValueObjectGetNumberInt child "pipefd" = none

/-- The restart document is malformed: the `"files"` key is missing, its
value is not an array, or some element lacks `"path"` or `"pipefd"`. -/
def docMalformed (object : JSONValue) : Prop :=
  virJSONValueObjectGet object "files" = none ∨
    (∃ v, virJSONValueObjectGet object "files" = some v ∧ virJSONValueArraySize v = none) ∨
    (∃ elems, virJSONValueObjectGet object "files" = some (.arr elems) ∧
      ∃ child ∈ elems, entryMalformed child)

/-- The JSON element that `virLogHandlerPreExecRestart` builds for one
entry: an object holding the entry's pipe descriptor and its writer's
current path. -/
def entryDocOf (f : LogFile) : JSONValue :=
  .obj [("pipefd", .num f.pipefd), ("path", .str (virRotatingFileWriterGetPath f.file))]

/-! ## Sample inputs used by witnesses and counterexamples -/

/-- A sample rotating writer over `/l` with rotation threshold 100. -/
def sampleWriter : RotatingFileWriter :=
  { path := "/l", maxlen := 100, maxbackup := 3, mode := 384, inode := 1, offset := 3 }

/-- A sample entry: the sample writer, watch 1, pipe read descriptor 5. -/
def sampleFile : LogFile := { file := sampleWriter, watch := 1, pipefd := 5 }

/-- A sample handler holding the sample entry. -/
def sampleHandler : virLogHandler := { privileged := true, files := [sampleFile] }

/-- A sample world: descriptor 5 open, watch 1 registered, `/l` holding
three bytes. -/
def sampleWorld : World :=
  { fds := [(5, true)], watches := [1], nextFd := 6, nextWatch := 2, nextInode := 2,
    fs := [⟨"/l", 1, [10, 11, 12]⟩] }

/-- A second sample entry: a writer over `/m`, watch 2, pipe read
descriptor 6. -/
def sampleFile2 : LogFile :=
  { file := { path := "/m", maxlen := 100, maxbackup := 3, mode := 384, inode := 4,
              offset := 0 },
    watch := 2, pipefd := 6 }

/-- A sample handler holding two entries. -/
def sampleHandler2 : virLogHandler := { privileged := true, files := [sampleFile, sampleFile2] }

/-- A sample world for the two-entry handler: descriptors 5 and 6 open with
close-on-exec set (not inheritable), watches 1 and 2 registered. -/
def sampleWorld2 : World :=
  { fds := [(5, false), (6, false)], watches := [1, 2], nextFd := 7, nextWatch := 3,
    nextInode := 5, fs := [⟨"/l", 1, [10, 11, 12]⟩, ⟨"/m", 4, []⟩] }

/-- Decidable equality of `Except` results, needed to evaluate the model
on concrete inputs. -/
def exceptDecEq {ε α : Type} [DecidableEq ε] [DecidableEq α] :
    (a b : Except ε α) → Decidable (a = b)
  | .error e, .error f =>
    if h : e = f then isTrue (congrArg Except.error h)
    else isFalse fun c => h (Except.error.inj c)
  | .error _, .ok _ => isFalse fun c => Except.noConfusion c
  | .ok _, .error _ => isFalse fun c => Except.noConfusion c
  | .ok a, .ok b =>
    if h : a = b then isTrue (congrArg Except.ok h)
    else isFalse fun c => h (Except.ok.inj c)

instance {ε α : Type} [DecidableEq ε] [DecidableEq α] : DecidableEq (Except ε α) :=
  exceptDecEq

/-! ## Theorems -/

/-- Helper: `find?` by watch over a decomposed entry list returns the
distinguished entry when nothing before it carries the watch. -/
theorem find?_watch_decomp (pre post : List LogFile) (file : LogFile) (watch : Int)
    (hpre : ∀ f ∈ pre, f.watch ≠ watch) (hw : file.watch = watch) :
    (pre ++ file :: post).find? (fun f => f.watch = watch) = some file := by
  induction pre with
  | nil =>
    simp only [List.nil_append]
    exact List.find?_cons_of_pos _ (by simpa using hw)
  | cons g gs ih =>
    have hg : ¬(g.watch = watch) := hpre g (by simp)
    rw [List.cons_append, List.find?_cons_of_neg]
    · exact ih fun f hf => hpre f (by simp [hf])
    · simp [hg]

/-- Helper: writing back the writer hits exactly the distinguished entry. -/
theorem updateFileWriter_decomp (pre post : List LogFile) (file : LogFile) (watch : Int)
    (wr : RotatingFileWriter) (hpre : ∀ f ∈ pre, f.watch ≠ watch)
    (hw : file.watch = watch) :
    updateFileWriter (pre ++ file :: post) watch wr =
      pre ++ { file with file := wr } :: post := by
  induction pre with
  | nil => simp [updateFileWriter, hw]
  | cons g gs ih =>
    have hg : g.watch ≠ watch := hpre g (by simp)
    simp only [List.cons_append, updateFileWriter, if_neg hg, List.append_eq]
    rw [ih fun f hf => hpre f (by simp [hf])]

/-- Helper: writing back the writer never changes the number of entries. -/
theorem updateFileWriter_length (files : List LogFile) (watch : Int)
    (wr : RotatingFileWriter) :
    (updateFileWriter files watch wr).length = files.length := by
  induction files with
  | nil => rfl
  | cons f rest ih =>
    unfold updateFileWriter
    split
    · simp
    · simp [ih]

/-- Helper: closing a decomposed entry removes exactly it and frees it. -/
theorem logFileClose_decomp (h : virLogHandler) (pre post : List LogFile)
    (file : LogFile) (w : World) (hdec : h.files = pre ++ file :: post)
    (hnot : file ∉ pre) :
    virLogHandlerLogFileClose h file w =
      (⟨h.privileged, pre ++ post⟩, virLogHandlerLogFileFree file w) := by
  unfold virLogHandlerLogFileClose
  have hmem : file ∈ h.files := by rw [hdec]; simp
  have he : h.files.erase file = pre ++ post := by
    rw [hdec, List.erase_append_right _ (by simpa using hnot), List.erase_cons_head]
  rw [if_pos hmem, he]

/-- Helper: freeing an entry does not touch the file system. -/
theorem freeParts_fs (pipefd watch : Int) (w : World) :
    (virLogHandlerLogFileFreeParts pipefd watch w).fs = w.fs := by
  unfold virLogHandlerLogFileFreeParts VIR_FORCE_CLOSE virEventRemoveHandle
  split <;> split <;> rfl

/-- Helper: appending to a path the file system already holds appends to
its content. -/
theorem fsRead_fsAppend (fs : List FSFile) (p : String) (data old : List Nat)
    (h : fsRead fs p = some old) : fsRead (fsAppend fs p data) p = some (old ++ data) := by
  induction fs with
  | nil => simp [fsRead, fsFind] at h
  | cons f rest ih =>
    by_cases hp : f.path = p
    · simp [fsRead, fsFind, fsAppend, hp, List.find?_cons_of_pos] at h ⊢
      simp [h]
    · simp only [fsRead, fsFind, fsAppend, List.map_cons, if_neg hp] at h ⊢
      rw [List.find?_cons_of_neg _ (by simpa using hp)] at h
      rw [List.find?_cons_of_neg _ (by simpa using hp)]
      exact ih h

/-- Helper: filtering out a descriptor number larger than everything open
changes nothing. -/
theorem filter_fd_fresh (fds : List (Int × Bool)) (a : Int)
    (ha : ∀ p ∈ fds, p.1 < a) : fds.filter (fun p => p.1 ≠ a) = fds := by
  apply List.filter_eq_self.mpr
  intro p hp
  simpa using (ha p hp).ne

/-- Helper: closing the two freshly allocated pipe descriptors, read end
first, restores the descriptor table. -/
theorem closeBoth_fds (fds : List (Int × Bool)) (a c : Int) (b1 b2 : Bool)
    (ha : ∀ p ∈ fds, p.1 < a) (hac : a < c) :
    (((a, b1) :: (c, b2) :: fds).filter (fun p => p.1 ≠ a)).filter
      (fun p => p.1 ≠ c) = fds := by
  have h1 : ((a, b1) :: (c, b2) :: fds).filter (fun p => p.1 ≠ a) = (c, b2) :: fds := by
    rw [List.filter_cons_of_neg, List.filter_cons_of_pos, filter_fd_fresh fds a ha]
    · simpa using hac.ne'
    · simp
  rw [h1, List.filter_cons_of_neg,
    filter_fd_fresh fds c (fun p hp => lt_trans (ha p hp) hac)]
  simp

/-- Helper: closing the two freshly allocated pipe descriptors, write end
first, restores the descriptor table. -/
theorem closeBoth_fds_rev (fds : List (Int × Bool)) (a c : Int) (b1 b2 : Bool)
    (ha : ∀ p ∈ fds, p.1 < a) (hac : a < c) :
    (((a, b1) :: (c, b2) :: fds).filter (fun p => p.1 ≠ c)).filter
      (fun p => p.1 ≠ a) = fds := by
  have h1 : ((a, b1) :: (c, b2) :: fds).filter (fun p => p.1 ≠ c) = (a, b1) :: fds := by
    rw [List.filter_cons_of_pos, List.filter_cons_of_neg,
      filter_fd_fresh fds c (fun p hp => lt_trans (ha p hp) hac)]
    · simp
    · simpa using hac.ne
  rw [h1, List.filter_cons_of_neg, filter_fd_fresh fds a ha]
  simp

/-- Helper: force-closing a non-negative descriptor filters it from the
descriptor table. -/
theorem forceClose_fds (fd : Int) (w : World) (h0 : 0 ≤ fd) :
    (VIR_FORCE_CLOSE fd w).fds = w.fds.filter (fun p => p.1 ≠ fd) := by
  unfold VIR_FORCE_CLOSE
  rw [if_neg (by omega)]

/-- Helper: force-closing a descriptor does not touch the watch set. -/
theorem forceClose_watches (fd : Int) (w : World) :
    (VIR_FORCE_CLOSE fd w).watches = w.watches := by
  unfold VIR_FORCE_CLOSE
  split <;> rfl

/-- Helper: freeing a partial entry whose watch is `-1` only closes its
descriptor. -/
theorem freeParts_noWatch (pipefd : Int) (w : World) :
    virLogHandlerLogFileFreeParts pipefd (-1) w = VIR_FORCE_CLOSE pipefd w := by
  unfold virLogHandlerLogFileFreeParts
  simp

/-- Helper: a successful `virRotatingFileWriterNew` touches only the file
system and the inode counter. -/
theorem writerNew_some_world (ok : Bool) (p : String) (maxlen maxbackup : Nat)
    (app : Bool) (mode : Nat) (w : World) (wr : RotatingFileWriter) (w2 : World)
    (hres : virRotatingFileWriterNew ok p maxlen maxbackup app mode w = some (wr, w2)) :
    w2.fds = w.fds ∧ w2.watches = w.watches ∧ w2.nextFd = w.nextFd ∧
      w2.nextWatch = w.nextWatch := by
  unfold virRotatingFileWriterNew at hres
  split at hres
  · split at hres
    · split at hres
      · obtain ⟨-, rfl⟩ := Prod.mk.inj (Option.some.inj hres)
        exact ⟨rfl, rfl, rfl, rfl⟩
      · obtain ⟨-, rfl⟩ := Prod.mk.inj (Option.some.inj hres)
        exact ⟨rfl, rfl, rfl, rfl⟩
    · obtain ⟨-, rfl⟩ := Prod.mk.inj (Option.some.inj hres)
      exact ⟨rfl, rfl, rfl, rfl⟩
  · simp at hres

/-- C3: whenever `virLogHandlerDomainOpenLogFile` fails — at path
derivation, the duplicate check, pipe creation, allocation, writer
creation, entry append or watch registration — the handler is returned
unchanged and every pipe descriptor created on the way has been closed and
no watch registration survives: the descriptor table and the watch set are
exactly those from before the call. -/
theorem openLogFile_failure_unwinds (env : OpenEnv) (h h2 : virLogHandler)
    (driver : String) (u : List Nat) (name : String) (w w2 : World) (hwf : w.WF)
    (e : OpenFailure)
    (hres : virLogHandlerDomainOpenLogFile env h driver u name w = (h2, w2, .error e)) :
    h2 = h ∧ w2.fds = w.fds ∧ w2.watches = w.watches := by
  obtain ⟨hfds, hwat, hfd0, hwat0⟩ := hwf
  unfold virLogHandlerDomainOpenLogFile at hres
  split at hres
  · simp only [Prod.mk.injEq] at hres
    obtain ⟨rfl, rfl, -⟩ := hres
    exact ⟨rfl, rfl, rfl⟩
  split at hres
  · simp only [Prod.mk.injEq] at hres
    obtain ⟨rfl, rfl, -⟩ := hres
    exact ⟨rfl, rfl, rfl⟩
  split at hres
  · simp only [Prod.mk.injEq] at hres
    obtain ⟨rfl, rfl, -⟩ := hres
    exact ⟨rfl, rfl, rfl⟩
  rename_i rfd wfd w1 hpipe
  have hpipe' : rfd = w.nextFd ∧ wfd = w.nextFd + 1 ∧
      w1 = { w with fds := (w.nextFd, true) :: (w.nextFd + 1, true) :: w.fds,
                    nextFd := w.nextFd + 2 } := by
    unfold virPipeCreate at hpipe
    split at hpipe
    · obtain ⟨h1, h23⟩ := Prod.mk.inj (Option.some.inj hpipe)
      obtain ⟨h4, h5⟩ := Prod.mk.inj h23
      exact ⟨h1.symm, h4.symm, h5.symm⟩
    · simp at hpipe
  obtain ⟨rfl, rfl, rfl⟩ := hpipe'
  split at hres
  case isTrue halloc =>
    split at hres
    · -- writer creation failed
      simp only [Prod.mk.injEq] at hres
      obtain ⟨rfl, rfl, -⟩ := hres
      refine ⟨rfl, ?_, ?_⟩
      · rw [freeParts_noWatch, forceClose_fds _ _ (by omega),
          forceClose_fds _ _ (by omega)]
        exact closeBoth_fds_rev w.fds w.nextFd (w.nextFd + 1) true true hfds (by omega)
      · rw [freeParts_noWatch, forceClose_watches, forceClose_watches]
    · -- writer created
      rename_i writer wB hwn
      obtain ⟨hBfds, hBwat, hBfd, hBwatch⟩ :=
        writerNew_some_world env.writerOk _ DEFAULT_FILE_SIZE DEFAULT_MAX_BACKUP
          false DEFAULT_MODE _ writer wB hwn
      split at hres
      · -- entry appended; watch registration
        simp only [virEventAddHandle] at hres
        cases hwOk : env.watchOk with
        | false =>
          simp only [hwOk, Bool.false_eq_true, if_false] at hres
          split at hres
          · -- watch registration failed: the error path
            simp only [Prod.mk.injEq] at hres
            obtain ⟨rfl, rfl, -⟩ := hres
            refine ⟨by simp, ?_, ?_⟩
            · simp only [virLogHandlerLogFileFree]
              rw [freeParts_noWatch, forceClose_fds _ _ (by omega),
                forceClose_fds _ _ (by omega), hBfds]
              exact closeBoth_fds_rev w.fds w.nextFd (w.nextFd + 1) true true hfds
                (by omega)
            · simp only [virLogHandlerLogFileFree]
              rw [freeParts_noWatch, forceClose_watches, forceClose_watches]
              exact hBwat
          · rename_i hc
            exact absurd (by norm_num) hc
        | true =>
          simp only [hwOk, if_true] at hres
          split at hres
          · rename_i hc
            rw [hBwatch] at hc
            exact absurd hc (by simp; omega)
          · simp only [Prod.mk.injEq] at hres
            obtain ⟨-, -, hc⟩ := hres
            exact absurd hc (by simp)
      · -- entry append failed
        simp only [Prod.mk.injEq] at hres
        obtain ⟨rfl, rfl, -⟩ := hres
        refine ⟨rfl, ?_, ?_⟩
        · simp only [virLogHandlerLogFileFree]
          rw [freeParts_noWatch, forceClose_fds _ _ (by omega),
            forceClose_fds _ _ (by omega), hBfds]
          exact closeBoth_fds_rev w.fds w.nextFd (w.nextFd + 1) true true hfds (by omega)
        · simp only [virLogHandlerLogFileFree]
          rw [freeParts_noWatch, forceClose_watches, forceClose_watches]
          exact hBwat
  case isFalse halloc =>
    simp only [Prod.mk.injEq] at hres
    obtain ⟨rfl, rfl, -⟩ := hres
    refine ⟨rfl, ?_, ?_⟩
    · rw [forceClose_fds _ _ (by omega), forceClose_fds _ _ (by omega)]
      exact closeBoth_fds w.fds w.nextFd (w.nextFd + 1) true true hfds (by omega)
    · rw [forceClose_watches, forceClose_watches]

/-- Witness for C3 at concrete inputs: an open whose watch registration
fails leaves the sample handler, its descriptor table and its watch set
exactly as they were. -/
theorem openLogFile_failure_unwinds_witness :
    (sampleWorld.WF ∧
     virLogHandlerDomainOpenLogFile ⟨true, none, true, true, true, true, false⟩
        sampleHandler "qemu" [] "g" sampleWorld =
      ((virLogHandlerDomainOpenLogFile ⟨true, none, true, true, true, true, false⟩
          sampleHandler "qemu" [] "g" sampleWorld).1,
       (virLogHandlerDomainOpenLogFile ⟨true, none, true, true, true, true, false⟩
          sampleHandler "qemu" [] "g" sampleWorld).2.1, .error .watchFail)) ∧
    ((virLogHandlerDomainOpenLogFile ⟨true, none, true, true, true, true, false⟩
        sampleHandler "qemu" [] "g" sampleWorld).1 = sampleHandler ∧
     (virLogHandlerDomainOpenLogFile ⟨true, none, true, true, true, true, false⟩
        sampleHandler "qemu" [] "g" sampleWorld).2.1.fds = sampleWorld.fds ∧
     (virLogHandlerDomainOpenLogFile ⟨true, none, true, true, true, true, false⟩
        sampleHandler "qemu" [] "g" sampleWorld).2.1.watches = sampleWorld.watches) :=
  ⟨⟨by decide, by decide⟩,
   openLogFile_failure_unwinds ⟨true, none, true, true, true, true, false⟩
     sampleHandler _ "qemu" [] "g" sampleWorld _ (by decide) .watchFail (by decide)⟩

/-- C8: log path derivation is a pure, deterministic function of
`(privileged, driver, guest_name)` (next to the ambient allocation oracle
and user cache directory): any two handlers agreeing on `privileged` and
any two guest UUIDs yield the same result; privileged mode yields
`<system-log-root>/libvirt/<driver>/<name>.log` where the system log root
is `LOCALSTATEDIR/log`, and unprivileged mode yields
`<user-cache-dir>/<driver>/log/<name>.log`. -/
theorem getLogFilePathForDomain_pure (aOk : Bool) (cd : Option String)
    (h h2 : virLogHandler) (driver name : String) (u u2 : List Nat)
    (hpriv : h.privileged = h2.privileged) :
    virLogHandlerGetLogFilePathForDomain aOk cd h driver u name =
      virLogHandlerGetLogFilePathForDomain aOk cd h2 driver u2 name ∧
    (h.privileged = true → aOk = true →
      virLogHandlerGetLogFilePathForDomain aOk cd h driver u name =
        some (LOCALSTATEDIR ++ "/log/libvirt/" ++ driver ++ "/" ++ name ++ ".log")) ∧
    (h.privileged = false → aOk = true → ∀ c, cd = some c →
      virLogHandlerGetLogFilePathForDomain aOk cd h driver u name =
        some (c ++ "/" ++ driver ++ "/log/" ++ name ++ ".log")) := by
  refine ⟨?_, ?_, ?_⟩
  · simp only [virLogHandlerGetLogFilePathForDomain, hpriv]
  · intro hp ha
    simp [virLogHandlerGetLogFilePathForDomain, hp, ha]
  · intro hp ha c hc
    simp [virLogHandlerGetLogFilePathForDomain, hp, ha, hc]

/-- Witness for C8 at concrete inputs: two handlers agreeing on the
privileged flag, two distinct UUIDs. -/
theorem getLogFilePathForDomain_pure_witness :
    (sampleHandler.privileged = (⟨true, []⟩ : virLogHandler).privileged) ∧
    (virLogHandlerGetLogFilePathForDomain true none sampleHandler "qemu" [1] "g" =
      virLogHandlerGetLogFilePathForDomain true none ⟨true, []⟩ "qemu" [2] "g" ∧
    (sampleHandler.privileged = true → true = true →
      virLogHandlerGetLogFilePathForDomain true none sampleHandler "qemu" [1] "g" =
        some (LOCALSTATEDIR ++ "/log/libvirt/" ++ "qemu" ++ "/" ++ "g" ++ ".log")) ∧
    (sampleHandler.privileged = false → true = true → ∀ c, (none : Option String) = some c →
      virLogHandlerGetLogFilePathForDomain true none sampleHandler "qemu" [1] "g" =
        some (c ++ "/" ++ "qemu" ++ "/log/" ++ "g" ++ ".log"))) :=
  ⟨rfl, getLogFilePathForDomain_pure true none sampleHandler ⟨true, []⟩ "qemu" "g" [1] [2] rfl⟩

/-- C2: when an entry over the derived path already exists,
`virLogHandlerDomainOpenLogFile` fails with the busy error and both the
handler and the world are returned exactly as they were: no entry, pipe or
watch is left behind. -/
theorem openLogFile_duplicate_busy (env : OpenEnv) (h : virLogHandler)
    (driver : String) (u : List Nat) (name : String) (w : World) (p : String)
    (hpath : virLogHandlerGetLogFilePathForDomain env.asprintfOk env.cachedir h driver
      u name = some p)
    (hdup : ∃ f ∈ h.files, virRotatingFileWriterGetPath f.file = p) :
    virLogHandlerDomainOpenLogFile env h driver u name w = (h, w, .error .busy) := by
  have hany : (h.files.any fun f => virRotatingFileWriterGetPath f.file = p) = true := by
    rcases hdup with ⟨f, hf, he⟩
    exact List.any_eq_true.mpr ⟨f, hf, by simpa using he⟩
  simp only [virLogHandlerDomainOpenLogFile, hpath, hany, if_true]

/-- Witness for C2 at concrete inputs: a privileged handler already holds
an entry over the derived path `/var/log/libvirt/qemu/g.log`; the second
open fails busy and returns the handler and world unchanged. -/
theorem openLogFile_duplicate_busy_witness :
    (virLogHandlerGetLogFilePathForDomain true none
        ⟨true, [⟨⟨"/var/log/libvirt/qemu/g.log", 131072, 3, 384, 1, 0⟩, 1, 5⟩]⟩
        "qemu" [] "g" = some "/var/log/libvirt/qemu/g.log" ∧
      ∃ f ∈ (⟨true, [⟨⟨"/var/log/libvirt/qemu/g.log", 131072, 3, 384, 1, 0⟩, 1, 5⟩]⟩ :
          virLogHandler).files,
        virRotatingFileWriterGetPath f.file = "/var/log/libvirt/qemu/g.log") ∧
    virLogHandlerDomainOpenLogFile
        ⟨true, none, true, true, true, true, true⟩
        ⟨true, [⟨⟨"/var/log/libvirt/qemu/g.log", 131072, 3, 384, 1, 0⟩, 1, 5⟩]⟩
        "qemu" [] "g" sampleWorld =
      (⟨true, [⟨⟨"/var/log/libvirt/qemu/g.log", 131072, 3, 384, 1, 0⟩, 1, 5⟩]⟩,
       sampleWorld, .error .busy) :=
  ⟨⟨by decide, by decide⟩,
   openLogFile_duplicate_busy ⟨true, none, true, true, true, true, true⟩
     ⟨true, [⟨⟨"/var/log/libvirt/qemu/g.log", 131072, 3, 384, 1, 0⟩, 1, 5⟩]⟩
     "qemu" [] "g" sampleWorld "/var/log/libvirt/qemu/g.log" (by decide) (by decide)⟩

/-- C1 (evaluation at the failing input): restoring a one-entry document
over a path whose file holds the three bytes 97/98/99 from before the
re-exec succeeds, but afterwards the file is empty.  The restore call site
passes `false` as the append argument of `virRotatingFileWriterNew`, and
under the writer contract of spec section 4.1 — "if `append` is false
truncates" — the re-created writer truncates, so the pre-re-exec log
content is not preserved, contradicting the claim. -/
theorem restore_truncates_prior_content :
    ((virLogHandlerNewPostExecRestart
        ⟨true, fun _ => true, fun _ => true, fun _ => true, fun _ => true⟩
        (.obj [("files", .arr
          [.obj [("path", .str "/var/log/libvirt/qemu/g.log"), ("pipefd", .num 7)]])])
        true
        ⟨[(7, true)], [], 8, 0, 2, [⟨"/var/log/libvirt/qemu/g.log", 1, [97, 98, 99]⟩]⟩).1).isSome
      = true ∧
    fsRead (virLogHandlerNewPostExecRestart
        ⟨true, fun _ => true, fun _ => true, fun _ => true, fun _ => true⟩
        (.obj [("files", .arr
          [.obj [("path", .str "/var/log/libvirt/qemu/g.log"), ("pipefd", .num 7)]])])
        true
        ⟨[(7, true)], [], 8, 0, 2, [⟨"/var/log/libvirt/qemu/g.log", 1, [97, 98, 99]⟩]⟩).2.fs
      "/var/log/libvirt/qemu/g.log" = some [] :=
  ⟨rfl, by decide⟩

/-- C9: every successful `virLogHandlerDomainReadLogFile` returns a buffer
holding at most `maxlen` bytes of log data followed immediately by a `0`
terminator (with the rest of the `maxlen + 1` allocation zero-filled). -/
theorem readLogFile_bounded_nul_terminated (env : ReadEnv) (h : virLogHandler)
    (driver : String) (u : List Nat) (name : String) (inode offset maxlen : Nat)
    (w : World) (buf : List Nat)
    (hres : virLogHandlerDomainReadLogFile env h driver u name inode offset maxlen w
      = some buf) :
    ∃ data : List Nat, data.length ≤ maxlen ∧
      buf = data ++ 0 :: List.replicate (maxlen - data.length) 0 := by
  unfold virLogHandlerDomainReadLogFile at hres
  split at hres
  · simp at hres
  split at hres
  · simp at hres
  split at hres
  · simp at hres
  rename_i file1 hseek
  split at hres
  · split at hres
    · simp at hres
    · rename_i got hcons
      have hgot : got = (readerAvail file1).take maxlen := by
        unfold virRotatingFileReaderConsume at hcons
        split at hcons
        · exact (Option.some.inj hcons).symm
        · simp at hcons
      have hlen : got.length ≤ maxlen := by
        rw [hgot, List.length_take]
        exact min_le_left _ _
      have hsplit : maxlen + 1 - got.length = (maxlen - got.length) + 1 := by omega
      rw [hsplit, List.replicate_succ] at hres
      exact ⟨got, hlen, (Option.some.inj hres).symm⟩
  · simp at hres

/-- C6: when the readiness event also signals hangup, the callback closes
the entry only after appending the bytes read in this invocation to the
writer — the final chunk reaches the log — and when the number of bytes
the append reports differs from the number read, the entry is closed as a
failure. -/
theorem event_hangup_drains_then_closes (watch fd : Int) (events : Nat)
    (reads : List ReadOutcome) (h : virLogHandler) (w : World)
    (pre post : List LogFile) (logfile : LogFile) (data old : List Nat)
    (hdec : h.files = pre ++ logfile :: post) (hpre : ∀ f ∈ pre, f.watch ≠ watch)
    (hw : logfile.watch = watch) (hfd : logfile.pipefd = fd)
    (hdrain : drainReads reads = some (.ok data))
    (hhang : events &&& VIR_EVENT_HANDLE_HANGUP ≠ 0)
    (hnorot : logfile.file.offset + data.length ≤ logfile.file.maxlen)
    (hold : fsRead w.fs (virRotatingFileWriterGetPath logfile.file) = some old) :
    (∃ h1 w1, virLogHandlerDomainLogFileEvent watch fd events reads none h w
        = some (h1, w1) ∧
      h1.files = pre ++ post ∧
      fsRead w1.fs (virRotatingFileWriterGetPath logfile.file) = some (old ++ data)) ∧
    (∀ r : Int, r ≠ (data.length : Int) →
      ∃ h2 w2, virLogHandlerDomainLogFileEvent watch fd events reads (some r) h w
          = some (h2, w2) ∧
        h2.files = pre ++ post) := by
  have hfind : virLogHandlerGetLogFileFromWatch h watch = some logfile := by
    unfold virLogHandlerGetLogFileFromWatch
    rw [hdec]
    exact find?_watch_decomp pre post logfile watch hpre hw
  have hnot : ∀ wr : RotatingFileWriter, ({ logfile with file := wr } : LogFile) ∉ pre :=
    fun wr hm => hpre _ hm hw
  constructor
  · have happ : virRotatingFileWriterAppend none logfile.file data w =
        ((data.length : Int),
         { logfile.file with offset := logfile.file.offset + data.length },
         { w with fs := fsAppend w.fs logfile.file.path data }) := by
      unfold virRotatingFileWriterAppend
      rw [if_neg (by omega)]
    have heq : virLogHandlerDomainLogFileEvent watch fd events reads none h w =
        some (⟨h.privileged, pre ++ post⟩,
          virLogHandlerLogFileFree
            { logfile with file :=
                { logfile.file with offset := logfile.file.offset + data.length } }
            { w with fs := fsAppend w.fs logfile.file.path data }) := by
      unfold virLogHandlerDomainLogFileEvent
      rw [hfind]
      simp only [hfd, ne_eq, not_true_eq_false, if_false, hdrain, happ]
      rw [if_pos hhang]
      rw [hdec, updateFileWriter_decomp pre post logfile watch _ hpre hw, ← hfd]
      rw [logFileClose_decomp ⟨h.privileged, _⟩ pre post _ _ rfl (hnot _)]
    refine ⟨_, _, heq, rfl, ?_⟩
    unfold virLogHandlerLogFileFree
    rw [freeParts_fs]
    exact fsRead_fsAppend w.fs _ data old hold
  · intro r hr
    have heq2 : virLogHandlerDomainLogFileEvent watch fd events reads (some r) h w =
        some (⟨h.privileged, pre ++ post⟩, virLogHandlerLogFileFree logfile w) := by
      unfold virLogHandlerDomainLogFileEvent
      rw [hfind]
      simp only [hfd, ne_eq, not_true_eq_false, if_false, hdrain]
      unfold virRotatingFileWriterAppend
      rw [if_pos (by simpa using hr)]
      rw [hdec, updateFileWriter_decomp pre post logfile watch _ hpre hw]
      have heta : ({ logfile with file := logfile.file } : LogFile) = logfile := rfl
      rw [heta, ← hfd]
      rw [logFileClose_decomp ⟨h.privileged, _⟩ pre post _ _ rfl
        (fun hm => hpre _ hm hw)]
    exact ⟨_, _, heq2, rfl⟩

/-- C5, counterexample to the claim as stated: a readiness event without
hangup whose read returns zero bytes — a "zero read result that is not a
would-block condition" — does not close the entry: the callback appends the
empty chunk and returns with the handler and world unchanged, the entry
still present.  (The claim asserts such a read causes the entry to be
closed.) -/
theorem event_zero_read_keeps_entry :
    virLogHandlerDomainLogFileEvent 1 5 VIR_EVENT_HANDLE_READABLE [.bytes []] none
        sampleHandler sampleWorld = some (sampleHandler, sampleWorld) ∧
    sampleHandler.files = [sampleFile] := by
  constructor
  · decide
  · decide

/-- C5 as amended: the callback reads at most a fixed 1 KiB chunk; a read
failing with `EINTR` is retried immediately; any other read failure
(would-block included) closes the entry, releasing its pipe and watch; but
a zero-byte read does not by itself close the entry — with no hangup
signalled and a successful (empty) append the entry stays. -/
theorem event_read_error_closes_amended :
    (∀ (reads : List ReadOutcome) (d : List Nat),
      drainReads reads = some (.ok d) → d.length ≤ 1024) ∧
    (∀ reads : List ReadOutcome, drainReads (.fail EINTR :: reads) = drainReads reads) ∧
    (∀ (watch fd : Int) (events : Nat) (reads : List ReadOutcome)
       (appendRet : Option Int) (h : virLogHandler) (w : World)
       (pre post : List LogFile) (logfile : LogFile) (e : Nat),
      h.files = pre ++ logfile :: post → (∀ f ∈ pre, f.watch ≠ watch) →
      logfile.watch = watch → logfile.pipefd = fd →
      drainReads reads = some (.error e) →
      virLogHandlerDomainLogFileEvent watch fd events reads appendRet h w =
        some (⟨h.privileged, pre ++ post⟩, virLogHandlerLogFileFree logfile w)) ∧
    (∀ (watch fd : Int) (events : Nat) (reads : List ReadOutcome)
       (h : virLogHandler) (w : World) (pre post : List LogFile) (logfile : LogFile),
      h.files = pre ++ logfile :: post → (∀ f ∈ pre, f.watch ≠ watch) →
      logfile.watch = watch → logfile.pipefd = fd →
      drainReads reads = some (.ok []) → events &&& VIR_EVENT_HANDLE_HANGUP = 0 →
      ∃ h1 w1,
        virLogHandlerDomainLogFileEvent watch fd events reads none h w = some (h1, w1) ∧
        h1.files.length = h.files.length) := by
  refine ⟨?_, ?_, ?_, ?_⟩
  · intro reads d
    induction reads with
    | nil => intro hc; simp [drainReads] at hc
    | cons o rest ih =>
      cases o with
      | bytes b =>
        intro hc
        simp only [drainReads, Option.some.injEq, Except.ok.injEq] at hc
        rw [← hc]
        simpa using List.length_take_le 1024 b
      | fail e =>
        intro hc
        simp only [drainReads] at hc
        by_cases he : e = EINTR
        · rw [if_pos he] at hc
          exact ih hc
        · rw [if_neg he] at hc
          simp at hc
  · intro reads
    simp [drainReads]
  · intro watch fd events reads appendRet h w pre post logfile e hdec hpre hw hfd hdrain
    have hfind : virLogHandlerGetLogFileFromWatch h watch = some logfile := by
      unfold virLogHandlerGetLogFileFromWatch
      rw [hdec]
      exact find?_watch_decomp pre post logfile watch hpre hw
    unfold virLogHandlerDomainLogFileEvent
    rw [hfind]
    simp only [hfd, ne_eq, not_true_eq_false, if_false, hdrain]
    rw [logFileClose_decomp h pre post logfile w hdec (fun hm => hpre _ hm hw)]
  · intro watch fd events reads h w pre post logfile hdec hpre hw hfd hdrain hhang
    have hfind : virLogHandlerGetLogFileFromWatch h watch = some logfile := by
      unfold virLogHandlerGetLogFileFromWatch
      rw [hdec]
      exact find?_watch_decomp pre post logfile watch hpre hw
    refine ⟨{ h with files := updateFileWriter h.files watch (virRotatingFileWriterAppend none logfile.file [] w).2.1 }, (virRotatingFileWriterAppend none logfile.file [] w).2.2, ?_, ?_⟩
    · unfold virLogHandlerDomainLogFileEvent
      rw [hfind]
      simp only [hfd, ne_eq, not_true_eq_false, if_false, hdrain]
      rw [if_neg (by simp [virRotatingFileWriterAppend])]
      rw [if_neg (by simpa using hhang)]
    · simpa using updateFileWriter_length h.files watch _

/-- Witness for C5 as amended, with every hypothesis discharged at concrete
inputs: a two-byte delivery stays within the 1 KiB bound; a leading `EINTR`
is retried; a read failing with `EAGAIN` (11) closes the sample entry; a
zero-byte read without hangup keeps the single entry. -/
theorem event_read_error_closes_amended_witness :
    (([9, 9] : List Nat).length ≤ 1024) ∧
    (drainReads [.fail EINTR, .bytes [3]] = drainReads [.bytes [3]]) ∧
    (virLogHandlerDomainLogFileEvent 1 5 1 [.fail 11] none sampleHandler sampleWorld =
      some (⟨sampleHandler.privileged, [] ++ []⟩,
        virLogHandlerLogFileFree sampleFile sampleWorld)) ∧
    (∃ h1 w1,
      virLogHandlerDomainLogFileEvent 1 5 1 [.bytes []] none sampleHandler
        sampleWorld = some (h1, w1) ∧
      h1.files.length = sampleHandler.files.length) :=
  ⟨event_read_error_closes_amended.1 [.bytes [9, 9]] [9, 9] (by decide),
   event_read_error_closes_amended.2.1 [.bytes [3]],
   event_read_error_closes_amended.2.2.1 1 5 1 [.fail 11] none sampleHandler
     sampleWorld [] [] sampleFile 11 (by decide) (by decide) (by decide) (by decide)
     (by decide),
   event_read_error_closes_amended.2.2.2 1 5 1 [.bytes []] sampleHandler
     sampleWorld [] [] sampleFile (by decide) (by decide) (by decide) (by decide)
     (by decide) (by decide)⟩

/-- Witness for C6 at concrete inputs: a hangup event delivering two bytes
appends them to `/l` and closes the entry; an append reporting 7 instead of
2 also closes the entry. -/
theorem event_hangup_drains_then_closes_witness :
    (sampleHandler.files = [] ++ sampleFile :: [] ∧
     (∀ f ∈ ([] : List LogFile), f.watch ≠ 1) ∧
     sampleFile.watch = 1 ∧ sampleFile.pipefd = 5 ∧
     drainReads [.bytes [65, 66]] = some (.ok [65, 66]) ∧
     9 &&& VIR_EVENT_HANDLE_HANGUP ≠ 0 ∧
     sampleFile.file.offset + [65, 66].length ≤ sampleFile.file.maxlen ∧
     fsRead sampleWorld.fs (virRotatingFileWriterGetPath sampleFile.file) =
       some [10, 11, 12]) ∧
    ((∃ h1 w1, virLogHandlerDomainLogFileEvent 1 5 9 [.bytes [65, 66]] none
        sampleHandler sampleWorld = some (h1, w1) ∧
      h1.files = [] ++ [] ∧
      fsRead w1.fs (virRotatingFileWriterGetPath sampleFile.file) =
        some ([10, 11, 12] ++ [65, 66])) ∧
    (∀ r : Int, r ≠ (([65, 66] : List Nat).length : Int) →
      ∃ h2 w2, virLogHandlerDomainLogFileEvent 1 5 9 [.bytes [65, 66]] (some r)
          sampleHandler sampleWorld = some (h2, w2) ∧
        h2.files = [] ++ [])) :=
  ⟨⟨by decide, by decide, by decide, by decide, by decide, by decide, by decide, by decide⟩,
   event_hangup_drains_then_closes 1 5 9 [.bytes [65, 66]] sampleHandler sampleWorld
     [] [] sampleFile [65, 66] [10, 11, 12] (by decide) (by decide) (by decide)
     (by decide) (by decide) (by decide) (by decide) (by decide)⟩

/-- Witness for C9 at concrete inputs: reading 5 bytes from offset 1 of a
three-byte log yields the two remaining bytes, a terminator right after
them, and zero padding. -/
theorem readLogFile_bounded_nul_terminated_witness :
    (virLogHandlerDomainReadLogFile ⟨true, none, true, true, true⟩
        ⟨true, []⟩ "qemu" [] "g" 1 1 5
        ⟨[], [], 0, 0, 2, [⟨"/var/log/libvirt/qemu/g.log", 1, [97, 98, 99]⟩]⟩
      = some [98, 99, 0, 0, 0, 0]) ∧
    (∃ data : List Nat, data.length ≤ 5 ∧
      [98, 99, 0, 0, 0, 0] = data ++ 0 :: List.replicate (5 - data.length) 0) :=
  ⟨by decide,
   readLogFile_bounded_nul_terminated ⟨true, none, true, true, true⟩ ⟨true, []⟩
     "qemu" [] "g" 1 1 5
     ⟨[], [], 0, 0, 2, [⟨"/var/log/libvirt/qemu/g.log", 1, [97, 98, 99]⟩]⟩
     [98, 99, 0, 0, 0, 0] (by decide)⟩

/-- Helper: an open descriptor can always have its inheritable attribute
set. -/
theorem setInherit_some (y : Int) (c : Bool) (w : World)
    (hy : ∃ b, (y, b) ∈ w.fds) : ∃ w1, virSetInherit y c w = some w1 := by
  unfold virSetInherit
  rw [if_pos]
  · exact ⟨_, rfl⟩
  · obtain ⟨b, hb⟩ := hy
    exact List.any_eq_true.mpr ⟨(y, b), hb, by simp⟩

/-- Helper: setting a descriptor inheritable marks it inheritable. -/
theorem setInherit_sets (y : Int) (w w1 : World)
    (hset : virSetInherit y true w = some w1) (hy : ∃ b, (y, b) ∈ w.fds) :
    (y, true) ∈ w1.fds := by
  unfold virSetInherit at hset
  split at hset
  · obtain rfl := (Option.some.inj hset).symm
    obtain ⟨b, hb⟩ := hy
    have := List.mem_map_of_mem
      (fun p : Int × Bool => if p.1 = y then (p.1, true) else p) hb
    simpa using this
  · simp at hset

/-- Helper: a descriptor already marked inheritable stays inheritable
across later `virSetInherit _ true` calls. -/
theorem setInherit_keeps_true (x y : Int) (w w1 : World)
    (hset : virSetInherit y true w = some w1) (hx : (x, true) ∈ w.fds) :
    (x, true) ∈ w1.fds := by
  unfold virSetInherit at hset
  split at hset
  · obtain rfl := (Option.some.inj hset).symm
    have := List.mem_map_of_mem
      (fun p : Int × Bool => if p.1 = y then (p.1, true) else p) hx
    by_cases hxy : x = y
    · simpa [hxy] using this
    · simpa [hxy] using this
  · simp at hset

/-- Helper: `virSetInherit` keeps every descriptor number present. -/
theorem setInherit_keys (fd y : Int) (c : Bool) (w w1 : World)
    (hset : virSetInherit y c w = some w1) (hx : ∃ b, (fd, b) ∈ w.fds) :
    ∃ b, (fd, b) ∈ w1.fds := by
  unfold virSetInherit at hset
  split at hset
  · obtain rfl := (Option.some.inj hset).symm
    obtain ⟨b, hb⟩ := hx
    have := List.mem_map_of_mem
      (fun p : Int × Bool => if p.1 = y then (p.1, c) else p) hb
    by_cases hxy : fd = y
    · exact ⟨c, by simpa [hxy] using this⟩
    · exact ⟨b, by simpa [hxy] using this⟩
  · simp at hset

/-- Helper: one successful step of the capture loop. -/
theorem capLoop_cons_ok (env : CapEnv) (f : LogFile) (rest : List LogFile)
    (i : Nat) (acc : List JSONValue) (w w1 : World)
    (hok : env.entryFail i = none)
    (hset : virSetInherit f.pipefd true w = some w1) :
    capLoop env (f :: rest) i acc w =
      capLoop env rest (i + 1) (acc ++ [entryDocOf f]) w1 := by
  simp only [capLoop, hok, hset, entryDocOf]

/-- Helper: a capture-loop step whose JSON construction fails aborts with
the world as it stands. -/
theorem capLoop_cons_fail (env : CapEnv) (f : LogFile) (rest : List LogFile)
    (i : Nat) (acc : List JSONValue) (w : World) (s : CapStep)
    (hfail : env.entryFail i = some s) :
    capLoop env (f :: rest) i acc w = (none, w) := by
  unfold capLoop
  rw [hfail]

/-- Helper: the capture loop, when the per-entry failure oracle never fires
and every entry's pipe descriptor is open, serializes every entry in order
and marks every pipe descriptor inheritable. -/
theorem capLoop_ok (env : CapEnv) (files : List LogFile) :
    ∀ (i : Nat) (acc : List JSONValue) (w : World),
      (∀ j, env.entryFail j = none) →
      (∀ f ∈ files, ∃ b, (f.pipefd, b) ∈ w.fds) →
      ∃ w1, capLoop env files i acc w = (some (acc ++ files.map entryDocOf), w1) ∧
        (∀ x : Int, (x, true) ∈ w.fds → (x, true) ∈ w1.fds) ∧
        (∀ f ∈ files, (f.pipefd, true) ∈ w1.fds) := by
  induction files with
  | nil =>
    intro i acc w _ _
    exact ⟨w, by simp [capLoop], fun x hx => hx, by simp⟩
  | cons f rest ih =>
    intro i acc w hok hpres
    obtain ⟨w1, hset⟩ := setInherit_some f.pipefd true w (hpres f (by simp))
    obtain ⟨w2, hloop, hmono, hall⟩ := ih (i + 1) (acc ++ [entryDocOf f]) w1 hok
      (fun g hg => setInherit_keys g.pipefd f.pipefd true w w1 hset
        (hpres g (by simp [hg])))
    refine ⟨w2, ?_, ?_, ?_⟩
    · rw [capLoop_cons_ok env f rest i acc w w1 (hok i) hset, hloop]
      simp
    · exact fun x hx => hmono x (setInherit_keeps_true x f.pipefd w w1 hset hx)
    · intro g hg
      rcases List.mem_cons.mp hg with rfl | hg2
      · exact hmono g.pipefd
          (setInherit_sets g.pipefd w w1 hset (hpres g (by simp)))
      · exact hall g hg2

/-- C7: a successful capture produces the document
`obj [files := arr [...]]` with one `{pipefd, path}` object per live entry,
in entry order, the path being the entry writer's current path and the
descriptor its pipe read end; and every captured pipe descriptor has been
marked inheritable (close-on-exec cleared) in the resulting world. -/
theorem preExecRestart_document_and_inherit (env : CapEnv) (h : virLogHandler)
    (w : World) (hret : env.retOk = true) (hfil : env.filesOk = true)
    (happ : env.objAppendOk = true) (hentry : ∀ j, env.entryFail j = none)
    (hfds : ∀ f ∈ h.files, ∃ b, (f.pipefd, b) ∈ w.fds) :
    ∃ w1, virLogHandlerPreExecRestart env h w =
        (some (.obj [("files", .arr (h.files.map entryDocOf))]), w1) ∧
      ∀ f ∈ h.files, (f.pipefd, true) ∈ w1.fds := by
  obtain ⟨w1, hloop, -, hall⟩ := capLoop_ok env h.files 0 [] w hentry hfds
  refine ⟨w1, ?_, hall⟩
  unfold virLogHandlerPreExecRestart
  rw [hret, hfil, happ]
  simp only [if_true]
  rw [hloop]
  simp

/-- Witness for C7 at concrete inputs: capturing the one-entry sample
handler yields the expected document and leaves descriptor 5 inheritable. -/
theorem preExecRestart_document_and_inherit_witness :
    (∀ f ∈ sampleHandler.files, ∃ b, (f.pipefd, b) ∈ sampleWorld.fds) ∧
    (∃ w1, virLogHandlerPreExecRestart
        ⟨true, true, true, fun _ => none⟩ sampleHandler sampleWorld =
        (some (.obj [("files", .arr (sampleHandler.files.map entryDocOf))]), w1) ∧
      ∀ f ∈ sampleHandler.files, (f.pipefd, true) ∈ w1.fds) :=
  ⟨by decide,
   preExecRestart_document_and_inherit ⟨true, true, true, fun _ => none⟩
     sampleHandler sampleWorld rfl rfl rfl (fun _ => rfl) (by decide)⟩

/-- Helper: inheritable marks persist through the capture loop, whatever
its outcome. -/
theorem capLoop_keeps_true (env : CapEnv) (files : List LogFile) :
    ∀ (i : Nat) (acc : List JSONValue) (w : World) (r : Option (List JSONValue))
      (w2 : World) (x : Int), capLoop env files i acc w = (r, w2) →
      (x, true) ∈ w.fds → (x, true) ∈ w2.fds := by
  induction files with
  | nil =>
    intro i acc w r w2 x hloop hx
    unfold capLoop at hloop
    obtain ⟨-, rfl⟩ := Prod.mk.inj hloop
    exact hx
  | cons f rest ih =>
    intro i acc w r w2 x hloop hx
    unfold capLoop at hloop
    split at hloop
    · obtain ⟨-, rfl⟩ := Prod.mk.inj hloop
      exact hx
    · split at hloop
      · obtain ⟨-, rfl⟩ := Prod.mk.inj hloop
        exact hx
      · rename_i w1 hset
        exact ih (i + 1) _ w1 r w2 x hloop
          (setInherit_keeps_true x f.pipefd w w1 hset hx)

/-- Helper: the capture loop, failing at the entry right after a prefix of
successful entries, aborts with no rollback: every prefix entry's pipe
descriptor remains marked inheritable. -/
theorem capLoop_fail (env : CapEnv) (pre : List LogFile) :
    ∀ (f : LogFile) (post : List LogFile) (i : Nat) (acc : List JSONValue)
      (w : World) (s : CapStep),
      (∀ k, k < pre.length → env.entryFail (i + k) = none) →
      (∀ g ∈ pre, ∃ b, (g.pipefd, b) ∈ w.fds) →
      env.entryFail (i + pre.length) = some s →
      ∃ w1, capLoop env (pre ++ f :: post) i acc w = (none, w1) ∧
        ∀ g ∈ pre, (g.pipefd, true) ∈ w1.fds := by
  induction pre with
  | nil =>
    intro f post i acc w s _ _ hfail
    exact ⟨w, capLoop_cons_fail env f post i acc w s (by simpa using hfail), by simp⟩
  | cons g gs ih =>
    intro f post i acc w s hok hpres hfail
    obtain ⟨w1, hset⟩ := setInherit_some g.pipefd true w (hpres g (by simp))
    obtain ⟨w2, hloop, hall⟩ := ih f post (i + 1) (acc ++ [entryDocOf g]) w1 s
      (fun k hk => by
        rw [show i + 1 + k = i + (k + 1) from by omega]
        exact hok (k + 1) (by simpa using Nat.succ_lt_succ hk))
      (fun q hq => setInherit_keys q.pipefd g.pipefd true w w1 hset
        (hpres q (by simp [hq])))
      (by
        rw [show i + 1 + gs.length = i + (g :: gs).length from by simp; omega]
        exact hfail)
    refine ⟨w2, ?_, ?_⟩
    · rw [List.cons_append,
        capLoop_cons_ok env g (gs ++ f :: post) i acc w w1 (hok 0 (by simp)) hset]
      exact hloop
    · intro q hq
      rcases List.mem_cons.mp hq with rfl | hq2
      · -- the head was marked inheritable and no later step undoes it
        have hmem := setInherit_sets q.pipefd w w1 hset (hpres q (by simp))
        exact capLoop_keeps_true env (gs ++ f :: post) (i + 1)
          (acc ++ [entryDocOf q]) w1 none w2 q.pipefd hloop hmem
      · exact hall q hq2

/-- Helper: freeing an entry does not touch the watch counter. -/
theorem freeParts_nextWatch (pipefd watch : Int) (w : World) :
    (virLogHandlerLogFileFreeParts pipefd watch w).nextWatch = w.nextWatch := by
  unfold virLogHandlerLogFileFreeParts virEventRemoveHandle VIR_FORCE_CLOSE
  split <;> split <;> rfl

/-- Helper: freeing an entry only removes watches. -/
theorem freeParts_watches_sub (pipefd watch x : Int) (w : World)
    (hx : x ∈ (virLogHandlerLogFileFreeParts pipefd watch w).watches) :
    x ∈ w.watches := by
  unfold virLogHandlerLogFileFreeParts at hx
  split at hx
  · unfold virEventRemoveHandle at hx
    have := List.mem_of_mem_filter hx
    rw [forceClose_watches] at this
    exact this
  · rw [forceClose_watches] at hx
    exact hx

/-- Helper: after freeing an entry with a real watch handle, that handle is
no longer registered. -/
theorem freeParts_watches_ne (pipefd watch x : Int) (w : World) (hwt : watch ≠ -1)
    (hx : x ∈ (virLogHandlerLogFileFreeParts pipefd watch w).watches) :
    x ≠ watch := by
  unfold virLogHandlerLogFileFreeParts at hx
  rw [if_pos hwt] at hx
  unfold virEventRemoveHandle at hx
  simpa using List.of_mem_filter hx

/-- Helper: disposing a list of entries (all carrying real watch handles)
leaves only watches that were already registered and belong to none of
them. -/
theorem dispose_files_watches (files : List LogFile) :
    ∀ (w : World) (x : Int), (∀ f ∈ files, f.watch ≠ -1) →
      x ∈ (files.foldl (fun w f => virLogHandlerLogFileFree f w) w).watches →
      x ∈ w.watches ∧ ∀ f ∈ files, x ≠ f.watch := by
  induction files with
  | nil =>
    intro w x _ hx
    exact ⟨hx, by simp⟩
  | cons f rest ih =>
    intro w x hne hx
    rw [List.foldl_cons] at hx
    obtain ⟨hx1, hx2⟩ := ih (virLogHandlerLogFileFree f w) x
      (fun g hg => hne g (by simp [hg])) hx
    refine ⟨freeParts_watches_sub f.pipefd f.watch x w hx1, ?_⟩
    intro g hg
    rcases List.mem_cons.mp hg with rfl | hg2
    · exact freeParts_watches_ne g.pipefd g.watch x w (hne g (by simp)) hx1
    · exact hx2 g hg2

/-- Helper: `virSetInherit` touches only the descriptor table. -/
theorem setInherit_some_world (y : Int) (c : Bool) (w w1 : World)
    (hset : virSetInherit y c w = some w1) :
    w1.watches = w.watches ∧ w1.nextWatch = w.nextWatch := by
  unfold virSetInherit at hset
  split at hset
  · obtain rfl := (Option.some.inj hset).symm
    exact ⟨rfl, rfl⟩
  · simp at hset

/-- Helper: rebuilding one entry never adds a watch registration. -/
theorem postExec_watches_sub (aOk bOk : Bool) (child : JSONValue) (w : World)
    (x : Int)
    (hx : x ∈ (virLogHandlerLogFilePostExecRestart aOk bOk child w).2.watches) :
    x ∈ w.watches := by
  unfold virLogHandlerLogFilePostExecRestart at hx
  split at hx
  · split at hx
    · exact freeParts_watches_sub 0 0 x w hx
    · split at hx
      · exact freeParts_watches_sub 0 0 x w hx
      · rename_i writer wB hwn
        obtain ⟨hBfds, hBwat, -, -⟩ := writerNew_some_world bOk _ DEFAULT_FILE_SIZE
          DEFAULT_MAX_BACKUP false DEFAULT_MODE w writer wB hwn
        split at hx
        · have := freeParts_watches_sub 0 0 x wB hx
          rw [hBwat] at this
          exact this
        · split at hx
          · have := freeParts_watches_sub _ 0 x wB hx
            rw [hBwat] at this
            exact this
          · rename_i w2 hset
            obtain ⟨hSw, -⟩ := setInherit_some_world _ false wB w2 hset
            rw [hSw, hBwat] at hx
            exact hx
  · exact hx

/-- Helper: rebuilding one entry does not touch the watch counter. -/
theorem postExec_nextWatch (aOk bOk : Bool) (child : JSONValue) (w : World) :
    (virLogHandlerLogFilePostExecRestart aOk bOk child w).2.nextWatch =
      w.nextWatch := by
  unfold virLogHandlerLogFilePostExecRestart
  split
  · split
    · exact freeParts_nextWatch 0 0 w
    · split
      · exact freeParts_nextWatch 0 0 w
      · rename_i writer wB hwn
        obtain ⟨-, -, -, hBnw⟩ := writerNew_some_world bOk _ DEFAULT_FILE_SIZE
          DEFAULT_MAX_BACKUP false DEFAULT_MODE w writer wB hwn
        split
        · rw [freeParts_nextWatch]
          exact hBnw
        · split
          · rw [freeParts_nextWatch]
            exact hBnw
          · rename_i w2 hset
            obtain ⟨-, hSnw⟩ := setInherit_some_world _ false wB w2 hset
            rw [hSnw]
            exact hBnw
  · rfl

/-- Helper: a successful entry rebuild leaves the watch set untouched. -/
theorem postExec_success_watches (aOk bOk : Bool) (child : JSONValue)
    (w w1 : World) (file : LogFile)
    (hres : virLogHandlerLogFilePostExecRestart aOk bOk child w = (some file, w1)) :
    w1.watches = w.watches := by
  unfold virLogHandlerLogFilePostExecRestart at hres
  split at hres
  · split at hres
    · simp at hres
    · split at hres
      · simp at hres
      · rename_i writer wB hwn
        obtain ⟨-, hBwat, -, -⟩ := writerNew_some_world bOk _ DEFAULT_FILE_SIZE
          DEFAULT_MAX_BACKUP false DEFAULT_MODE w writer wB hwn
        split at hres
        · simp at hres
        · split at hres
          · simp at hres
          · rename_i w2 hset
            obtain ⟨hSw, -⟩ := setInherit_some_world _ false wB w2 hset
            obtain ⟨-, rfl⟩ := Prod.mk.inj hres
            rw [hSw]
            exact hBwat
  · simp at hres

/-- Helper: a malformed element (missing string `"path"` or integer
`"pipefd"`) makes the entry rebuild fail. -/
theorem postExec_malformed_none (aOk bOk : Bool) (child : JSONValue) (w : World)
    (hm : entryMalformed child) :
    (virLogHandlerLogFilePostExecRestart aOk bOk child w).1 = none := by
  unfold virLogHandlerLogFilePostExecRestart
  split
  · split
    · rfl
    · split
      · rfl
      · split
        · rfl
        · split
          · rfl
          · rcases hm with hp | hp <;> simp_all
  · rfl

/-- Helper: a malformed element anywhere in the array makes the restore
loop fail, regardless of the failure oracles. -/
theorem restoreLoop_malformed (env : RestoreEnv) (elems : List JSONValue) :
    ∀ (i : Nat) (h : virLogHandler) (w : World),
      (∃ child ∈ elems, entryMalformed child) →
      (restoreLoop env elems i h w).1 = none := by
  induction elems with
  | nil =>
    intro i h w hbad
    simp at hbad
  | cons child rest ih =>
    intro i h w hbad
    unfold restoreLoop
    split
    · rfl
    · rename_i file w1 hentry
      have hchild : ¬entryMalformed child := by
        intro hm
        have := postExec_malformed_none (env.allocOk i) (env.writerOk i) child w hm
        rw [hentry] at this
        exact absurd this (by simp)
      have hrest : ∃ c ∈ rest, entryMalformed c := by
        rcases hbad with ⟨c, hc, hm⟩
        rcases List.mem_cons.mp hc with rfl | hc2
        · exact absurd hm hchild
        · exact ⟨c, hc2, hm⟩
      split
      · simp only [virEventAddHandle]
        cases hwk : env.watchOk i with
        | false => simp
        | true =>
          rw [if_pos rfl]
          split
          · rfl
          · exact ih (i + 1) _ _ hrest
      · rfl

/-- Helper: when the restore loop fails, every watch still registered
afterwards was registered before the loop ran and belongs to none of the
handler's entries — nothing registered during the loop survives. -/
theorem restoreLoop_fail_watches (env : RestoreEnv) (elems : List JSONValue) :
    ∀ (i : Nat) (h : virLogHandler) (w w2 : World),
      0 ≤ w.nextWatch → (∀ f ∈ h.files, f.watch ≠ -1) →
      restoreLoop env elems i h w = (none, w2) →
      ∀ x ∈ w2.watches, x ∈ w.watches ∧ ∀ f ∈ h.files, x ≠ f.watch := by
  induction elems with
  | nil =>
    intro i h w w2 _ _ hres
    unfold restoreLoop at hres
    obtain ⟨hc, -⟩ := Prod.mk.inj hres
    exact absurd hc (by simp)
  | cons child rest ih =>
    intro i h w w2 hnw hne hres
    unfold restoreLoop at hres
    split at hres
    · -- the entry rebuild failed: dispose
      rename_i w1 hentry
      obtain ⟨-, rfl⟩ := Prod.mk.inj hres
      intro x hx
      obtain ⟨hx1, hx2⟩ := dispose_files_watches h.files w1 x hne hx
      exact ⟨by
        have := postExec_watches_sub (env.allocOk i) (env.writerOk i) child w x
          (by rw [hentry]; exact hx1)
        exact this, hx2⟩
    · rename_i file w1 hentry
      have hw1 : w1.watches = w.watches :=
        postExec_success_watches (env.allocOk i) (env.writerOk i) child w w1 file
          hentry
      have hw1n : w1.nextWatch = w.nextWatch := by
        have := postExec_nextWatch (env.allocOk i) (env.writerOk i) child w
        rw [hentry] at this
        exact this
      split at hres
      · -- entry appended; watch registration
        simp only [virEventAddHandle] at hres
        cases hwk : env.watchOk i with
        | false =>
          simp only [hwk, Bool.false_eq_true, if_false] at hres
          rw [if_pos (by norm_num)] at hres
          obtain ⟨-, rfl⟩ := Prod.mk.inj hres
          intro x hx
          rw [List.dropLast_concat] at hx
          obtain ⟨hx1, hx2⟩ := dispose_files_watches h.files w1 x hne hx
          rw [hw1] at hx1
          exact ⟨hx1, hx2⟩
        | true =>
          simp only [hwk, if_true] at hres
          rw [if_neg (by omega)] at hres
          intro x hx
          obtain ⟨hx1, hx2⟩ := ih (i + 1)
            ⟨h.privileged, (h.files ++ [file]).dropLast ++
              [{ file with watch := w1.nextWatch }]⟩
            ⟨w1.fds, w1.nextWatch :: w1.watches, w1.nextFd, w1.nextWatch + 1,
              w1.nextInode, w1.fs⟩
            w2
            (by show (0 : Int) ≤ w1.nextWatch + 1; omega)
            (by
              intro f hf
              rw [List.dropLast_concat] at hf
              rcases List.mem_append.mp hf with hf1 | hf2
              · exact hne f hf1
              · have hfe : f = { file with watch := w1.nextWatch } := by
                  simpa using hf2
                rw [hfe]
                show w1.nextWatch ≠ -1
                omega)
            hres x hx
          rw [List.dropLast_concat] at hx2
          refine ⟨?_, ?_⟩
          · rcases List.mem_cons.mp hx1 with hxe | hx3
            · refine absurd hxe (hx2 { file with watch := w1.nextWatch } ?_)
              exact List.mem_append_right _ (by simp)
            · rw [hw1] at hx3
              exact hx3
          · intro f hf
            exact hx2 f (List.mem_append_left _ hf)
      · -- growing the entry array failed: dispose
        obtain ⟨-, rfl⟩ := Prod.mk.inj hres
        intro x hx
        obtain ⟨hx1, hx2⟩ := dispose_files_watches h.files w1 x hne hx
        rw [hw1] at hx1
        exact ⟨hx1, hx2⟩

/-- Helper: a successful restore loop rebuilds exactly one entry per
element. -/
theorem restoreLoop_success_length (env : RestoreEnv) (elems : List JSONValue) :
    ∀ (i : Nat) (h h2 : virLogHandler) (w w2 : World),
      restoreLoop env elems i h w = (some h2, w2) →
      h2.files.length = h.files.length + elems.length := by
  induction elems with
  | nil =>
    intro i h h2 w w2 hres
    unfold restoreLoop at hres
    obtain ⟨hc, -⟩ := Prod.mk.inj hres
    rw [← Option.some.inj hc]
    simp
  | cons child rest ih =>
    intro i h h2 w w2 hres
    unfold restoreLoop at hres
    split at hres
    · obtain ⟨hc, -⟩ := Prod.mk.inj hres
      exact absurd hc (by simp)
    · rename_i file w1 hentry
      split at hres
      · simp only [virEventAddHandle] at hres
        cases hwk : env.watchOk i with
        | false =>
          simp only [hwk, Bool.false_eq_true, if_false] at hres
          rw [if_pos (by norm_num)] at hres
          obtain ⟨hc, -⟩ := Prod.mk.inj hres
          exact absurd hc (by simp)
        | true =>
          simp only [hwk, if_true] at hres
          split at hres
          · obtain ⟨hc, -⟩ := Prod.mk.inj hres
            exact absurd hc (by simp)
          · have := ih (i + 1) _ h2 _ w2 hres
            rw [this]
            simp [List.dropLast_concat]
            omega
      · obtain ⟨hc, -⟩ := Prod.mk.inj hres
        exact absurd hc (by simp)

/-- C4: restore is all-or-nothing.  A document whose `files` key is
missing, whose value under it is not an array, or any of whose elements
lacks a string `path` or an integer `pipefd` makes
`virLogHandlerNewPostExecRestart` return an error; whenever it returns an
error, no watch registered during the restore survives in the event loop
(the watch set afterwards is contained in the original one); and whenever
it succeeds, the handler holds exactly one entry per document element —
never a partial subset. -/
theorem postExecRestart_all_or_nothing (env : RestoreEnv) (object : JSONValue)
    (priv : Bool) (w : World) (hwf : w.WF) :
    (docMalformed object → (virLogHandlerNewPostExecRestart env object priv w).1 = none) ∧
    (∀ w2, (virLogHandlerNewPostExecRestart env object priv w).2 = w2 →
      (virLogHandlerNewPostExecRestart env object priv w).1 = none →
      ∀ x ∈ w2.watches, x ∈ w.watches) ∧
    (∀ h2, (virLogHandlerNewPostExecRestart env object priv w).1 = some h2 →
      ∃ elems, virJSONValueObjectGet object "files" = some (.arr elems) ∧
        h2.files.length = elems.length) := by
  obtain ⟨-, -, -, hnw⟩ := hwf
  unfold virLogHandlerNewPostExecRestart virLogHandlerNew
  cases hnew : env.newOk with
  | false =>
    exact ⟨fun _ => rfl, fun w2 hw2 _ x hx => by rw [← hw2] at hx; exact hx,
      fun h2 hc => Option.noConfusion hc⟩
  | true =>
    cases hget : virJSONValueObjectGet object "files" with
    | none =>
      exact ⟨fun _ => rfl, fun w2 hw2 _ x hx => by rw [← hw2] at hx; exact hx,
        fun h2 hc => Option.noConfusion hc⟩
    | some v =>
      cases v with
      | arr elems =>
        refine ⟨?_, ?_, ?_⟩
        · intro hmal
          rcases hmal with hm | ⟨v2, hv2, hsz⟩ | ⟨elems2, helems2, hbad⟩
          · rw [hget] at hm
            exact absurd hm (by simp)
          · rw [hget] at hv2
            obtain rfl := Option.some.inj hv2
            simp [virJSONValueArraySize] at hsz
          · rw [hget] at helems2
            obtain rfl : elems = elems2 := by
              have := Option.some.inj helems2
              exact JSONValue.arr.inj this
            exact restoreLoop_malformed env elems 0 ⟨priv, []⟩ w hbad
        · intro w2 hw2 hnone x hx
          have hfull : restoreLoop env elems 0 ⟨priv, []⟩ w = (none, w2) := by
            rw [Prod.ext_iff]
            exact ⟨hnone, hw2⟩
          exact (restoreLoop_fail_watches env elems 0 ⟨priv, []⟩ w w2 hnw
            (by simp) hfull x hx).1
        · intro h2 hsome
          refine ⟨elems, rfl, ?_⟩
          have hfull : restoreLoop env elems 0 ⟨priv, []⟩ w =
              (some h2, (restoreLoop env elems 0 ⟨priv, []⟩ w).2) := by
            rw [Prod.ext_iff]
            exact ⟨hsome, rfl⟩
          have := restoreLoop_success_length env elems 0 ⟨priv, []⟩ h2 w _ hfull
          simpa using this
      | str s =>
        exact ⟨fun _ => rfl, fun w2 hw2 _ x hx => by rw [← hw2] at hx; exact hx,
          fun h2 hc => Option.noConfusion hc⟩
      | num n =>
        exact ⟨fun _ => rfl, fun w2 hw2 _ x hx => by rw [← hw2] at hx; exact hx,
          fun h2 hc => Option.noConfusion hc⟩
      | obj fields =>
        exact ⟨fun _ => rfl, fun w2 hw2 _ x hx => by rw [← hw2] at hx; exact hx,
          fun h2 hc => Option.noConfusion hc⟩

/-- Witness for C4 at concrete inputs: restoring a two-element document
whose second element lacks `pipefd` over a well-formed world. -/
theorem postExecRestart_all_or_nothing_witness :
    sampleWorld.WF ∧
    ((docMalformed (.obj [("files", .arr
        [.obj [("path", .str "/l"), ("pipefd", .num 5)], .obj [("path", .str "/m")]])]) →
      (virLogHandlerNewPostExecRestart
        ⟨true, fun _ => true, fun _ => true, fun _ => true, fun _ => true⟩
        (.obj [("files", .arr
          [.obj [("path", .str "/l"), ("pipefd", .num 5)], .obj [("path", .str "/m")]])])
        true sampleWorld).1 = none) ∧
    (∀ w2, (virLogHandlerNewPostExecRestart
        ⟨true, fun _ => true, fun _ => true, fun _ => true, fun _ => true⟩
        (.obj [("files", .arr
          [.obj [("path", .str "/l"), ("pipefd", .num 5)], .obj [("path", .str "/m")]])])
        true sampleWorld).2 = w2 →
      (virLogHandlerNewPostExecRestart
        ⟨true, fun _ => true, fun _ => true, fun _ => true, fun _ => true⟩
        (.obj [("files", .arr
          [.obj [("path", .str "/l"), ("pipefd", .num 5)], .obj [("path", .str "/m")]])])
        true sampleWorld).1 = none →
      ∀ x ∈ w2.watches, x ∈ sampleWorld.watches) ∧
    (∀ h2, (virLogHandlerNewPostExecRestart
        ⟨true, fun _ => true, fun _ => true, fun _ => true, fun _ => true⟩
        (.obj [("files", .arr
          [.obj [("path", .str "/l"), ("pipefd", .num 5)], .obj [("path", .str "/m")]])])
        true sampleWorld).1 = some h2 →
      ∃ elems, virJSONValueObjectGet
          (.obj [("files", .arr
            [.obj [("path", .str "/l"), ("pipefd", .num 5)], .obj [("path", .str "/m")]])])
          "files" = some (.arr elems) ∧
        h2.files.length = elems.length)) :=
  ⟨by decide,
   postExecRestart_all_or_nothing
     ⟨true, fun _ => true, fun _ => true, fun _ => true, fun _ => true⟩
     (.obj [("files", .arr
       [.obj [("path", .str "/l"), ("pipefd", .num 5)], .obj [("path", .str "/m")]])])
     true sampleWorld (by decide)⟩

/-- C10: capture's side effect is not atomic on failure: when the capture
loop fails at entry `i` (after serializing entries `0..i-1`), no document
is returned, yet the pipe descriptors of entries `0..i-1`, already marked
inheritable, remain inheritable in the resulting world — the failed capture
does not restore their close-on-exec attribute. -/
theorem preExecRestart_partial_inherit_persists (env : CapEnv) (h : virLogHandler)
    (w : World) (i : Nat) (s : CapStep) (hret : env.retOk = true)
    (hfil : env.filesOk = true) (happ : env.objAppendOk = true)
    (hlt : i < h.files.length)
    (hok : ∀ k, k < i → env.entryFail k = none)
    (hpres : ∀ f ∈ h.files.take i, ∃ b, (f.pipefd, b) ∈ w.fds)
    (hfail : env.entryFail i = some s) :
    ∃ w1, virLogHandlerPreExecRestart env h w = (none, w1) ∧
      ∀ f ∈ h.files.take i, (f.pipefd, true) ∈ w1.fds := by
  have hlen : (h.files.take i).length = i := by
    rw [List.length_take]
    omega
  obtain ⟨w1, hloop, hall⟩ := capLoop_fail env (h.files.take i) (h.files[i])
    (h.files.drop (i + 1)) 0 [] w s
    (fun k hk => by
      rw [show 0 + k = k from by omega]
      exact hok k (by rw [hlen] at hk; exact hk))
    hpres
    (by rw [hlen, show 0 + i = i from by omega]; exact hfail)
  have hdec : h.files = h.files.take i ++ h.files[i] :: h.files.drop (i + 1) := by
    rw [← List.drop_eq_getElem_cons hlt, List.take_append_drop]
  refine ⟨w1, ?_, hall⟩
  unfold virLogHandlerPreExecRestart
  rw [hret, hfil, happ]
  simp only [if_true]
  rw [hdec, hloop]

/-- Witness for C10 at concrete inputs: capturing the two-entry sample
handler with the JSON construction failing at entry 1 returns no document,
yet entry 0's descriptor 5 — initially close-on-exec — is left
inheritable. -/
theorem preExecRestart_partial_inherit_persists_witness :
    (1 < sampleHandler2.files.length ∧
     (∀ k, k < 1 → (fun j => if j = 1 then some CapStep.appendNum else none) k = none) ∧
     (∀ f ∈ sampleHandler2.files.take 1, ∃ b, (f.pipefd, b) ∈ sampleWorld2.fds)) ∧
    (∃ w1, virLogHandlerPreExecRestart
        ⟨true, true, true, fun j => if j = 1 then some CapStep.appendNum else none⟩
        sampleHandler2 sampleWorld2 = (none, w1) ∧
      ∀ f ∈ sampleHandler2.files.take 1, (f.pipefd, true) ∈ w1.fds) :=
  ⟨⟨by decide, by decide, by decide⟩,
   preExecRestart_partial_inherit_persists
     ⟨true, true, true, fun j => if j = 1 then some CapStep.appendNum else none⟩
     sampleHandler2 sampleWorld2 1 CapStep.appendNum rfl rfl rfl (by decide)
     (by decide) (by decide) rfl⟩

end LogHandler
